import Mathlib

/-!
Plugin marketplace backend: purchase-gated delivery, versioning and reviews.

A shallow embedding of the controllers `pluginController.js` and
`purchaseController.js` together with the schemas `pluginModel.js` and
`purchaseModel.js`.

Modelling conventions.

* The document store is explicit state: `Store` holds the `plugins` collection,
  the `purchases` collection and the set of paths present in the upload
  directories (`files`).  Every controller is a function
  `Store → request → Response × Store`.
* Mongo object ids are natural numbers; `a.toString() === b.toString()` on two
  ids is equality of the numbers.
* A JavaScript `Number` is an exact rational (`ℚ`) or `NaN`; infinities, signed
  zero and rounding are not modelled.  Download counters, which only ever
  start at `0` and are incremented, are natural numbers.
* Request body fields are scalar JavaScript values (`JSVal`); array and object
  valued fields are not modelled.
* Library behaviour that the repository does not define (`Number` applied to a
  string, `Number.prototype.toString`, `JSON.parse`) is a parameter, `JSLib`.
* Mongoose bookkeeping fields (`createdAt`, `updatedAt`, sub-document `_id`,
  `__v`) are not modelled.  Schema validation is modelled for the paths an
  operation writes; documents already in the store are taken as they are.
* Values the code draws from the environment (`new Date()`, the generated
  object id of a new plugin, `crypto.randomBytes(16)`) are inputs of the
  request.
-/

namespace Marketplace

/-! ## JavaScript scalars -/

/-- A scalar JavaScript value as found in `req.body`. -/
inductive JSVal where
  | undefined
  | null
  | bool (b : Bool)
  | num (q : ℚ)
  | nan
  | str (s : String)
deriving DecidableEq

/-- Library functions used by the controllers and by Mongoose casting whose
definition lies outside the repository. -/
structure JSLib where
  /-- `Number(s)` for a string `s`; `none` is `NaN`. -/
  stringToNumber : String → Option ℚ
  /-- `String(q)` for a number `q`. -/
  numberToString : ℚ → String
  /-- `JSON.parse(s)` followed by the cast of the result to `[String]`:
  `none` when `JSON.parse` throws, `some none` when the parsed value cannot be
  cast, `some (some l)` otherwise. -/
  jsonParse : String → Option (Option (List String))

/-- JavaScript truthiness, as used by `||`, `!` and `if`. -/
def JSVal.truthy : JSVal → Bool
  | .undefined => false
  | .null => false
  | .bool b => b
  | .num q => decide (q ≠ 0)
  | .nan => false
  | .str s => decide (s ≠ "")

/-- `Number(v)`: `none` is `NaN`. -/
def JSVal.toNumber (lib : JSLib) : JSVal → Option ℚ
  | .undefined => none
  | .null => some 0
  | .bool b => some (if b then 1 else 0)
  | .num q => some q
  | .nan => none
  | .str s => lib.stringToNumber s

/-- `String(v)`, the conversion `JSON.parse` applies to its argument. -/
def JSVal.toStr (lib : JSLib) : JSVal → String
  | .undefined => "undefined"
  | .null => "null"
  | .bool b => if b then "true" else "false"
  | .num q => lib.numberToString q
  | .nan => "NaN"
  | .str s => s

/-! ## Mongoose casting -/

/-- Result of casting a value to a schema type. -/
inductive Cast (α : Type) where
  | undefined
  | null
  | castError
  | value (a : α)
deriving DecidableEq

/-- Mongoose cast to `Number`: `undefined` stays undefined, `null` and the
empty string become `null`, strings and booleans go through `Number`, and
`NaN` is a cast error.  Trimming of surrounding blanks before the test for the
empty string is left to `stringToNumber`. -/
def castNumber (lib : JSLib) : JSVal → Cast ℚ
  | .undefined => .undefined
  | .null => .null
  | .bool b => .value (if b then 1 else 0)
  | .num q => .value q
  | .nan => .castError
  | .str s =>
    if s = "" then .null
    else match lib.stringToNumber s with
      | some q => .value q
      | none => .castError

/-- Mongoose cast to `String`: `null`/`undefined` are kept, other scalars are
converted with `toString`. -/
def castString (lib : JSLib) : JSVal → Cast String
  | .undefined => .undefined
  | .null => .null
  | .bool b => .value (if b then "true" else "false")
  | .num q => .value (lib.numberToString q)
  | .nan => .value "NaN"
  | .str s => .value s

/-- A `String` path with `required: true`: present and non-empty. -/
def requiredString (lib : JSLib) (v : JSVal) : Option String :=
  match castString lib v with
  | .value s => if s = "" then none else some s
  | _ => none

/-- An optional `String` path: `some none` when absent, `none` on a cast error. -/
def optionalString (lib : JSLib) (v : JSVal) : Option (Option String) :=
  match castString lib v with
  | .value s => some (some s)
  | .undefined => some none
  | .null => some none
  | .castError => none

/-! ## Data model (`pluginModel.js`, `purchaseModel.js`) -/

/-- Sub-document of `reviewSchema`. -/
structure Review where
  user : Nat
  rating : ℚ
  comment : String
  helpfulCount : Nat
deriving DecidableEq

/-- Sub-document of `versionSchema`. -/
structure Version where
  versionNumber : String
  filePath : String
  minecraftVersion : String
  changelog : Option String
  releaseDate : Nat
  downloadCount : Nat
deriving DecidableEq

/-- Document of `pluginSchema`. -/
structure Plugin where
  id : Nat
  name : String
  author : Nat
  description : String
  price : ℚ
  category : String
  features : List String
  requirements : Option String
  thumbnailUrl : Option String
  versions : List Version
  reviews : List Review
  averageRating : ℚ
  downloadCount : Nat
  featured : Bool
deriving DecidableEq

/-- Document of `purchaseSchema`. -/
structure Purchase where
  user : Nat
  plugin : Nat
  price : ℚ
  transactionId : String
deriving DecidableEq

/-- The persistent state: both collections and the upload directories. -/
structure Store where
  plugins : List Plugin
  purchases : List Purchase
  files : List String
deriving DecidableEq

/-- Errors raised by library calls; the controller has not set a status. -/
inductive LibError where
  | validationError
  | jsonError
  | duplicateKey
deriving DecidableEq

/-- What the handler produced: a response, an error thrown by the controller
after `res.status(code)`, or an error thrown by a library call. -/
inductive Response where
  | ok (status : Nat)
  | fail (status : Nat) (message : String)
  | thrown (e : LibError)
deriving DecidableEq

/-! ## Store primitives -/

/-- `Plugin.findById(id)`. -/
def findById (ps : List Plugin) (id : Nat) : Option Plugin :=
  ps.find? (fun p => p.id == id)

/-- `Purchase.findOne({ user, plugin })`. -/
def findPurchase (xs : List Purchase) (user plugin : Nat) : Option Purchase :=
  xs.find? (fun x => x.user == user && x.plugin == plugin)

/-- `fs.existsSync(path)`. -/
def existsSync (s : Store) (path : String) : Bool :=
  s.files.contains path

/-- The hook `pluginSchema.pre('save')` (pluginModel.js 117-127). -/
def preSave (p : Plugin) : Plugin :=
  if p.reviews.length > 0 then
    { p with averageRating :=
        p.reviews.foldl (fun acc review => acc + review.rating) 0 / (p.reviews.length : ℚ) }
  else
    { p with averageRating := 0 }

/-- Write a document back over the stored document with the same `_id`. -/
def replaceDoc : List Plugin → Plugin → List Plugin
  | [], _ => []
  | q :: qs, p => if q.id == p.id then p :: qs else q :: replaceDoc qs p

/-- `plugin.save()` once validation has passed: run the pre-save hook, then
persist. -/
def savePlugin (s : Store) (p : Plugin) : Store :=
  { s with plugins := replaceDoc s.plugins (preSave p) }

/-- A file as multer hands it to the controller. -/
structure UploadedFile where
  path : String
  filename : String
deriving DecidableEq

/-- The object `req.files` built by `upload.fields`. -/
structure ReqFiles where
  pluginFile : Option UploadedFile
  thumbnailFile : Option UploadedFile
deriving DecidableEq

/-- Disk storage of multer: every accepted file is written to its path before
the controller runs. -/
def multerStore (s : Store) (files : ReqFiles) : Store :=
  { s with files := s.files ++ (files.pluginFile.toList ++ files.thumbnailFile.toList).map (·.path) }

/-! ## Schema validation of the sub-documents and fields an operation writes -/

/-- Validation of a pushed review: `rating` is a `Number` with `min: 1` and
`max: 5`, `comment` is a required `String`.  The argument `rating` is the
result of `Number(rating)`, `none` standing for `NaN`. -/
def validateReview (lib : JSLib) (user : Nat) (rating : Option ℚ) (comment : JSVal) :
    Option Review :=
  match rating, requiredString lib comment with
  | some q, some c =>
    if decide (1 ≤ q) && decide (q ≤ 5) then
      some { user := user, rating := q, comment := c, helpfulCount := 0 }
    else none
  | _, _ => none

/-- Validation of a new version sub-document: `versionNumber`, `filePath` and
`minecraftVersion` are required strings, `changelog` is optional and
`downloadCount` defaults to `0`. -/
def validateVersion (lib : JSLib) (versionNumber minecraftVersion changelog : JSVal)
    (filePath : String) (releaseDate : Nat) : Option Version :=
  match requiredString lib versionNumber, requiredString lib minecraftVersion,
      optionalString lib changelog with
  | some vn, some mv, some cl =>
    if filePath = "" then none
    else some { versionNumber := vn, filePath := filePath, minecraftVersion := mv,
                changelog := cl, releaseDate := releaseDate, downloadCount := 0 }
  | _, _, _ => none

/-- The `price` path on creation: `required: true, default: 0`. -/
def validateNewPrice (lib : JSLib) (price : JSVal) : Option ℚ :=
  match castNumber lib price with
  | .undefined => some 0
  | .value q => some q
  | _ => none

/-- The assignment `plugin.f = v || plugin.f` on a required `String` path,
followed by validation of that path. -/
def assignString (lib : JSLib) (v : JSVal) (old : String) : Option String :=
  if v.truthy then requiredString lib v else some old

/-- The assignment `plugin.price = price || plugin.price`, followed by
validation of the path. -/
def assignPrice (lib : JSLib) (v : JSVal) (old : ℚ) : Option ℚ :=
  if v.truthy then
    match castNumber lib v with
    | .value q => some q
    | _ => none
  else some old

/-- The assignment `plugin.requirements = requirements || plugin.requirements`. -/
def assignOptString (lib : JSLib) (v : JSVal) (old : Option String) : Option (Option String) :=
  if v.truthy then optionalString lib v else some old

/-! ## Controllers (`pluginController.js`, `purchaseController.js`) -/

/-- `plugin.versions[plugin.versions.length - 1]` (pluginController.js 291). -/
def latestVersion (p : Plugin) : Option Version :=
  p.versions[p.versions.length - 1]?

/-- The gate shared by reviewing and downloading (pluginController.js 241 and
285): `!hasPurchased && plugin.author.toString() !== req.user._id.toString()`. -/
def gateRejects (s : Store) (user : Nat) (plugin : Plugin) : Bool :=
  (findPurchase s.purchases user plugin.id).isNone && plugin.author != user

/-- Body of `POST /api/plugins/:id/reviews`. -/
structure ReviewBody where
  rating : JSVal
  comment : JSVal
deriving DecidableEq

/-- Controller `createPluginReview` (pluginController.js 225-266). -/
def createPluginReview (lib : JSLib) (s : Store) (user id : Nat) (body : ReviewBody) :
    Response × Store :=
  match findById s.plugins id with
  | none => (.fail 404 "Plugin not found", s)
  | some plugin =>
    if gateRejects s user plugin then
      (.fail 403 "You must purchase this plugin before leaving a review", s)
    else if (plugin.reviews.find? (fun r => r.user == user)).isSome then
      (.fail 400 "You have already reviewed this plugin", s)
    else
      match validateReview lib user (body.rating.toNumber lib) body.comment with
      | none => (.thrown .validationError, s)
      | some review =>
        (.ok 201, savePlugin s { plugin with reviews := plugin.reviews ++ [review] })

/-- Controller `downloadPlugin` (pluginController.js 271-313). -/
def downloadPlugin (s : Store) (user id : Nat) : Response × Store :=
  match findById s.plugins id with
  | none => (.fail 404 "Plugin not found", s)
  | some plugin =>
    if gateRejects s user plugin then
      (.fail 403 "You must purchase this plugin before downloading", s)
    else
      match latestVersion plugin with
      | none => (.fail 404 "No version available for download", s)
      | some latest =>
        if !existsSync s latest.filePath then
          (.fail 404 "Plugin file not found", s)
        else
          (.ok 200, savePlugin s
            { plugin with
              versions := plugin.versions.set (plugin.versions.length - 1)
                { latest with downloadCount := latest.downloadCount + 1 }
              downloadCount := plugin.downloadCount + 1 })

/-- Controller `createPurchase` (purchaseController.js 10-55).  The argument
`transactionId` is the value of `crypto.randomBytes(16).toString('hex')`; the
schema declares the path `unique`, so a repeated value is a duplicate-key
error of the store. -/
def createPurchase (s : Store) (user pluginId : Nat) (transactionId : String) :
    Response × Store :=
  match findById s.plugins pluginId with
  | none => (.fail 404 "Plugin not found", s)
  | some plugin =>
    if plugin.author == user then
      (.fail 400 "You cannot purchase your own plugin", s)
    else if (findPurchase s.purchases user pluginId).isSome then
      (.fail 400 "You have already purchased this plugin", s)
    else if s.purchases.any (fun x => x.transactionId == transactionId) then
      (.thrown .duplicateKey, s)
    else
      (.ok 201, { s with purchases := s.purchases ++
        [{ user := user, plugin := pluginId, price := plugin.price,
           transactionId := transactionId }] })

/-- Body of `POST /api/plugins/:id/versions`. -/
structure VersionBody where
  versionNumber : JSVal
  minecraftVersion : JSVal
  changelog : JSVal
deriving DecidableEq

/-- Controller `addPluginVersion` (pluginController.js 185-220); `now` is the
value of `new Date()`. -/
def addPluginVersion (lib : JSLib) (s : Store) (user id : Nat) (body : VersionBody)
    (files : ReqFiles) (now : Nat) : Response × Store :=
  match findById s.plugins id with
  | none => (.fail 404 "Plugin not found", s)
  | some plugin =>
    if plugin.author != user then
      (.fail 403 "You are not authorized to update this plugin", s)
    else
      match files.pluginFile with
      | none => (.fail 400 "Please upload a plugin file", s)
      | some pluginFile =>
        match validateVersion lib body.versionNumber body.minecraftVersion body.changelog
            pluginFile.path now with
        | none => (.thrown .validationError, s)
        | some v => (.ok 200, savePlugin s { plugin with versions := plugin.versions ++ [v] })

/-- Body of `PUT /api/plugins/:id`. -/
structure UpdateBody where
  name : JSVal
  price : JSVal
  category : JSVal
  description : JSVal
  requirements : JSVal
  features : JSVal
deriving DecidableEq

/-- Controller `updatePlugin` (pluginController.js 144-180); `serverUrl` is
the value of the template built from `req.protocol` and the host header. -/
def updatePlugin (lib : JSLib) (s : Store) (user id : Nat) (body : UpdateBody)
    (files : ReqFiles) (serverUrl : String) : Response × Store :=
  match findById s.plugins id with
  | none => (.fail 404 "Plugin not found", s)
  | some plugin =>
    if plugin.author != user then
      (.fail 403 "You are not authorized to update this plugin", s)
    else
      match (if body.features.truthy then lib.jsonParse (body.features.toStr lib)
             else some (some plugin.features)) with
      | none => (.thrown .jsonError, s)
      | some features =>
        let thumbnailUrl :=
          match files.thumbnailFile with
          | some thumbnailFile =>
            some (serverUrl ++ "/uploads/thumbnails/" ++ thumbnailFile.filename)
          | none => plugin.thumbnailUrl
        match assignString lib body.name plugin.name,
            assignPrice lib body.price plugin.price,
            assignString lib body.category plugin.category,
            assignString lib body.description plugin.description,
            assignOptString lib body.requirements plugin.requirements,
            features with
        | some name, some price, some category, some description, some requirements,
            some features =>
          (.ok 200, savePlugin s
            { plugin with
              name := name, price := price, category := category,
              description := description, requirements := requirements,
              features := features, thumbnailUrl := thumbnailUrl })
        | _, _, _, _, _, _ => (.thrown .validationError, s)

/-- Body of `POST /api/plugins`. -/
structure CreateBody where
  name : JSVal
  price : JSVal
  category : JSVal
  description : JSVal
  version : JSVal
  minecraftVersion : JSVal
  requirements : JSVal
  features : JSVal
deriving DecidableEq

/-- Validation of the document handed to `Plugin.create`
(pluginController.js 110-127). -/
def validateNewPlugin (lib : JSLib) (user : Nat) (body : CreateBody)
    (features : Option (List String)) (thumbnailUrl filePath : String) (now newId : Nat) :
    Option Plugin :=
  match requiredString lib body.name, validateNewPrice lib body.price,
      requiredString lib body.category, requiredString lib body.description,
      optionalString lib body.requirements, features,
      validateVersion lib body.version body.minecraftVersion .undefined filePath now with
  | some name, some price, some category, some description, some requirements,
      some features, some v =>
    some { id := newId, name := name, author := user, description := description,
           price := price, category := category, features := features,
           requirements := requirements, thumbnailUrl := some thumbnailUrl,
           versions := [v], reviews := [], averageRating := 0, downloadCount := 0,
           featured := false }
  | _, _, _, _, _, _, _ => none

/-- Controller `createPlugin` (pluginController.js 93-139); `now` is
`new Date()` and `newId` the object id generated for the document.
`Plugin.create` resolves to the saved document or rejects, so the `else`
branch of `if (plugin)` with its two `fs.unlinkSync` calls is never taken. -/
def createPlugin (lib : JSLib) (s : Store) (user : Nat) (body : CreateBody)
    (files : ReqFiles) (serverUrl : String) (now newId : Nat) : Response × Store :=
  match files.pluginFile, files.thumbnailFile with
  | some pluginFile, some thumbnailFile =>
    let thumbnailUrl := serverUrl ++ "/uploads/thumbnails/" ++ thumbnailFile.filename
    match (if body.features.truthy then lib.jsonParse (body.features.toStr lib)
           else some (some [])) with
    | none => (.thrown .jsonError, s)
    | some features =>
      match validateNewPlugin lib user body features thumbnailUrl pluginFile.path now newId with
      | none => (.thrown .validationError, s)
      | some plugin =>
        if (findById s.plugins newId).isSome then (.thrown .duplicateKey, s)
        else (.ok 201, { s with plugins := s.plugins ++ [preSave plugin] })
  | _, _ => (.fail 400 "Please upload both plugin file and thumbnail", s)

/-! ## Requests and the transition system -/

/-- A request to one of the state-changing routes, with the authenticated
caller where the route is protected. -/
inductive Request where
  | createPlugin (user : Nat) (body : CreateBody) (files : ReqFiles) (serverUrl : String)
      (now newId : Nat)
  | updatePlugin (user id : Nat) (body : UpdateBody) (files : ReqFiles) (serverUrl : String)
  | addPluginVersion (user id : Nat) (body : VersionBody) (pluginFile : Option UploadedFile)
      (now : Nat)
  | createPluginReview (user id : Nat) (body : ReviewBody)
  | downloadPlugin (user id : Nat)
  | createPurchase (user pluginId : Nat) (transactionId : String)

/-- Route dispatch (`pluginRoutes.js`, `purchaseRoutes.js`): the three upload
routes run multer before the controller; `versionUpload` admits the field
`pluginFile` only. -/
def handle (lib : JSLib) (s : Store) : Request → Response × Store
  | .createPlugin user body files serverUrl now newId =>
    createPlugin lib (multerStore s files) user body files serverUrl now newId
  | .updatePlugin user id body files serverUrl =>
    updatePlugin lib (multerStore s files) user id body files serverUrl
  | .addPluginVersion user id body pluginFile now =>
    addPluginVersion lib (multerStore s { pluginFile := pluginFile, thumbnailFile := none })
      user id body { pluginFile := pluginFile, thumbnailFile := none } now
  | .createPluginReview user id body => createPluginReview lib s user id body
  | .downloadPlugin user id => downloadPlugin s user id
  | .createPurchase user pluginId transactionId => createPurchase s user pluginId transactionId

/-- Run a sequence of requests, one after the other. -/
def run (lib : JSLib) (s : Store) : List Request → Store
  | [] => s
  | r :: rs => run lib (handle lib s r).2 rs

/-- The store before any request. -/
def Store.empty : Store := { plugins := [], purchases := [], files := [] }

/-! ## Predicates, invariants and sample data used by the theorems -/

/-- A controller error with status 403. -/
def Response.forbidden : Response → Bool
  | .fail status _ => status == 403
  | _ => false

/-- A response sent by the controller itself (no error was thrown). -/
def Response.success : Response → Bool
  | .ok _ => true
  | _ => false

/-- No purchase of `plugin` by `user` is recorded in the ledger. -/
def noPurchase (xs : List Purchase) (user plugin : Nat) : Prop :=
  ∀ x ∈ xs, ¬ (x.user = user ∧ x.plugin = plugin)

/-- Sample library used to evaluate the controllers on concrete requests. -/
def sampleLib : JSLib :=
  { stringToNumber := fun _ => none
    numberToString := fun _ => "n"
    jsonParse := fun _ => none }

/-- Sample version of the sample plugin. -/
def sampleVersion : Version :=
  { versionNumber := "1.0", filePath := "uploads/plugins/a.jar", minecraftVersion := "1.20",
    changelog := none, releaseDate := 0, downloadCount := 0 }

/-- Sample plugin: id 1, written by user 1, price 10. -/
def samplePlugin : Plugin :=
  { id := 1, name := "p", author := 1, description := "d", price := 10, category := "c",
    features := [], requirements := none, thumbnailUrl := none, versions := [sampleVersion],
    reviews := [], averageRating := 0, downloadCount := 0, featured := false }

/-- Sample store: the sample plugin with its file, nothing purchased yet. -/
def sampleStore : Store :=
  { plugins := [samplePlugin], purchases := [], files := ["uploads/plugins/a.jar"] }

/-- The ledger holds at most one purchase per (user, plugin) pair. -/
def ledgerUnique (xs : List Purchase) : Prop :=
  (xs.map (fun x => (x.user, x.plugin))).Nodup

/-- The arithmetic mean of the ratings as the specification words it: the sum
of the ratings divided by the number of reviews, and `0` when there is none. -/
def meanRating (reviews : List Review) : ℚ :=
  if reviews = [] then 0 else (reviews.map (fun r => r.rating)).sum / (reviews.length : ℚ)

/-- Sample plugin that already holds one review, by user 2 with rating 4. -/
def reviewedPlugin : Plugin :=
  { samplePlugin with
    reviews := [{ user := 2, rating := 4, comment := "fine", helpfulCount := 0 }],
    averageRating := 4 }

/-- Sample store: the reviewed plugin, bought by users 2 and 3. -/
def reviewedStore : Store :=
  { plugins := [reviewedPlugin],
    purchases := [{ user := 2, plugin := 1, price := 10, transactionId := "aa" },
                  { user := 3, plugin := 1, price := 10, transactionId := "bb" }],
    files := ["uploads/plugins/a.jar"] }

/-- The relation between a stored plugin and the document a request writes
over it: same id and author, no version removed, and the reviews either kept
or extended by one review of a user who had none and who bought the plugin or
wrote it. -/
def Evolves (purchases : List Purchase) (old new : Plugin) : Prop :=
  new.id = old.id ∧ new.author = old.author ∧ old.versions.length ≤ new.versions.length ∧
  (new.reviews = old.reviews ∨
    ∃ review, new.reviews = old.reviews ++ [review] ∧
      (∀ r ∈ old.reviews, r.user ≠ review.user) ∧
      (review.user = old.author ∨ ¬ noPurchase purchases review.user old.id))

/-- No two reviews of the plugin carry the same user id. -/
def reviewsUnique (p : Plugin) : Prop :=
  (p.reviews.map (fun r => r.user)).Nodup

/-- Every reviewer of every stored plugin is its author or has bought it. -/
def reviewersAdmitted (s : Store) : Prop :=
  ∀ p ∈ s.plugins, ∀ r ∈ p.reviews, r.user = p.author ∨ ¬ noPurchase s.purchases r.user p.id

/-- Run the requests one after the other as long as each one is answered
successfully; `none` as soon as one is not. -/
def runOk (lib : JSLib) (s : Store) : List Request → Option Store
  | [] => some s
  | r :: rs => if (handle lib s r).1.success then runOk lib (handle lib s r).2 rs else none

/-- The data of one call of `POST /api/plugins/:id/versions`. -/
structure VersionCall where
  user : Nat
  body : VersionBody
  pluginFile : Option UploadedFile
  now : Nat

/-- The request that makes the call on plugin `id`. -/
def VersionCall.request (id : Nat) (c : VersionCall) : Request :=
  .addPluginVersion c.user id c.body c.pluginFile c.now

/-- The version sub-document that a call appends: built from the uploaded
file and the body of that call, released at its `now`, never downloaded. -/
def VersionCall.appends (lib : JSLib) (c : VersionCall) (v : Version) : Prop :=
  ∃ f, c.pluginFile = some f ∧
    validateVersion lib c.body.versionNumber c.body.minecraftVersion c.body.changelog
      f.path c.now = some v ∧
    v.filePath = f.path ∧ v.releaseDate = c.now ∧ v.downloadCount = 0

/-- Two version uploads by the author of the sample plugin. -/
def sampleCalls : List VersionCall :=
  [{ user := 1, body := ⟨.str "1.1", .str "1.20", .undefined⟩,
     pluginFile := some ⟨"uploads/plugins/b.jar", "b.jar"⟩, now := 5 },
   { user := 1, body := ⟨.str "1.2", .str "1.21", .str "fixes"⟩,
     pluginFile := some ⟨"uploads/plugins/c.jar", "c.jar"⟩, now := 9 }]

/-- The sample store after the two sample uploads. -/
def sampleStoreAfterCalls : Store :=
  run sampleLib sampleStore (sampleCalls.map (VersionCall.request 1))

/-- Sample plugin with two versions, downloaded 7 and 3 times. -/
def popularPlugin : Plugin :=
  { samplePlugin with
    versions := [{ sampleVersion with downloadCount := 7 },
                 { sampleVersion with versionNumber := "1.1",
                                      filePath := "uploads/plugins/b.jar",
                                      downloadCount := 3 }],
    downloadCount := 10 }

/-- Sample store for downloads: the popular plugin, bought by user 2. -/
def downloadStore : Store :=
  { plugins := [popularPlugin],
    purchases := [{ user := 2, plugin := 1, price := 10, transactionId := "aa" }],
    files := ["uploads/plugins/a.jar", "uploads/plugins/b.jar"] }

/-- The request is a call of `createPurchase`. -/
def Request.isPurchase : Request → Bool
  | .createPurchase _ _ _ => true
  | _ => false

/-- Scenario, first request: user 1 creates a plugin priced 10. -/
def scenarioCreate : Request :=
  .createPlugin 1
    { name := .str "p", price := .num 10, category := .str "c", description := .str "d",
      version := .str "1.0", minecraftVersion := .str "1.20", requirements := .undefined,
      features := .undefined }
    { pluginFile := some ⟨"uploads/plugins/a.jar", "a.jar"⟩,
      thumbnailFile := some ⟨"uploads/thumbnails/a.png", "a.png"⟩ }
    "http://h" 0 1

/-- Scenario, last request: user 1 raises the price to 20. -/
def scenarioUpdate : Request :=
  .updatePlugin 1 1
    { name := .undefined, price := .num 20, category := .undefined,
      description := .undefined, requirements := .undefined, features := .undefined }
    { pluginFile := none, thumbnailFile := none } "http://h"

/-- Scenario: the store once the plugin is created. -/
def scenarioStore : Store :=
  (handle sampleLib Store.empty scenarioCreate).2

/-- Scenario: the plugin as created. -/
def scenarioPlugin : Plugin :=
  { id := 1, name := "p", author := 1, description := "d", price := 10, category := "c",
    features := [], requirements := none,
    thumbnailUrl := some "http://h/uploads/thumbnails/a.png",
    versions := [sampleVersion], reviews := [], averageRating := 0, downloadCount := 0,
    featured := false }

/-- The converted rating is a number within the bounds of the schema. -/
def ratingInRange (lib : JSLib) (rating : JSVal) : Prop :=
  ∃ q, rating.toNumber lib = some q ∧ 1 ≤ q ∧ q ≤ 5

/-- Request with a thumbnail and no plugin binary. -/
def thumbnailOnly : Request :=
  .createPlugin 1
    { name := .str "p", price := .num 10, category := .str "c", description := .str "d",
      version := .str "1.0", minecraftVersion := .str "1.20", requirements := .undefined,
      features := .undefined }
    { pluginFile := none, thumbnailFile := some ⟨"uploads/thumbnails/a.png", "a.png"⟩ }
    "http://h" 0 1

/-- Request with both files whose body lacks the required `name`. -/
def namelessPlugin : Request :=
  .createPlugin 1
    { name := .undefined, price := .num 10, category := .str "c", description := .str "d",
      version := .str "1.0", minecraftVersion := .str "1.20", requirements := .undefined,
      features := .undefined }
    { pluginFile := some ⟨"uploads/plugins/a.jar", "a.jar"⟩,
      thumbnailFile := some ⟨"uploads/thumbnails/a.png", "a.png"⟩ }
    "http://h" 0 1

/-- The specification's rule for a text field of `updatePlugin`: the field
holds the supplied value (as a string) when that value is truthy, and the
prior value when it is absent or falsy. -/
def TextSetOrKept (lib : JSLib) (supplied : JSVal) (prior new : String) : Prop :=
  (supplied.truthy = true → castString lib supplied = .value new) ∧
  (supplied.truthy = false → new = prior)

/-- The same rule for the optional text field `requirements`. -/
def OptTextSetOrKept (lib : JSLib) (supplied : JSVal) (prior new : Option String) : Prop :=
  (supplied.truthy = true → ∃ v, castString lib supplied = .value v ∧ new = some v) ∧
  (supplied.truthy = false → new = prior)

/-- The same rule for the numeric field `price`. -/
def NumberSetOrKept (lib : JSLib) (supplied : JSVal) (prior new : ℚ) : Prop :=
  (supplied.truthy = true → castNumber lib supplied = .value new) ∧
  (supplied.truthy = false → new = prior)

/-- The specification's rule for `features`: replaced by the parsed list when
supplied, kept otherwise. -/
def FeaturesSetOrKept (lib : JSLib) (supplied : JSVal) (prior new : List String) : Prop :=
  (supplied.truthy = true → lib.jsonParse (supplied.toStr lib) = some (some new)) ∧
  (supplied.truthy = false → new = prior)

/-- The field is absent or a string. -/
def JSVal.isText (v : JSVal) : Prop :=
  v = .undefined ∨ ∃ s, v = .str s

/-- The field is absent or a number. -/
def JSVal.isNumeric (v : JSVal) : Prop :=
  v = .undefined ∨ ∃ q, v = .num q

/-- An update body made of strings and numbers only, whose `features`, when
supplied, parse to a list of strings. -/
def UpdateBody.plain (lib : JSLib) (b : UpdateBody) : Prop :=
  b.name.isText ∧ b.price.isNumeric ∧ b.category.isText ∧ b.description.isText ∧
  b.requirements.isText ∧
  (b.features.truthy = false ∨ ∃ l, lib.jsonParse (b.features.toStr lib) = some (some l))

/-- Sample update by the author: a new name, description left out, the number
`0` as price. -/
def sampleUpdate : UpdateBody :=
  { name := .str "q", price := .num 0, category := .undefined, description := .str "",
    requirements := .str "java 17", features := .undefined }

/-- The stored plugin `p'` continues the stored plugin `p`: same author, and
no fewer versions. -/
def Continues (p p' : Plugin) : Prop :=
  p'.author = p.author ∧ p.versions.length ≤ p'.versions.length

/-- Requests that follow the creation of the scenario plugin, by several
callers: a purchase, a price change, a new version by the author, a refused
update by user 2, a review and a download by the buyer. -/
def scenarioLater : List Request :=
  [.createPurchase 2 1 "aa",
   scenarioUpdate,
   .addPluginVersion 1 1 ⟨.str "1.1", .str "1.20", .undefined⟩
      (some ⟨"uploads/plugins/b.jar", "b.jar"⟩) 5,
   .updatePlugin 2 1 sampleUpdate ⟨none, none⟩ "http://h",
   .createPluginReview 2 1 ⟨.num 5, .str "good"⟩,
   .downloadPlugin 2 1]

/-! ## Lemmas on the store primitives -/

theorem findById_some {ps : List Plugin} {id : Nat} {p : Plugin}
    (h : findById ps id = some p) : p.id = id ∧ p ∈ ps := by
  unfold findById at h
  have h1 := List.find?_some h
  have h2 := List.mem_of_find?_eq_some h
  exact ⟨by simpa using h1, h2⟩

theorem findPurchase_isNone_iff (xs : List Purchase) (user plugin : Nat) :
    (findPurchase xs user plugin).isNone = true ↔ noPurchase xs user plugin := by
  unfold findPurchase noPurchase
  rw [Option.isNone_iff_eq_none, List.find?_eq_none]
  simp

theorem findPurchase_isSome_iff (xs : List Purchase) (user plugin : Nat) :
    (findPurchase xs user plugin).isSome = true ↔ ¬ noPurchase xs user plugin := by
  rw [← findPurchase_isNone_iff]
  cases findPurchase xs user plugin <;> simp

theorem gateRejects_iff (s : Store) (user id : Nat) (plugin : Plugin)
    (h : findById s.plugins id = some plugin) :
    gateRejects s user plugin = true ↔ noPurchase s.purchases user id ∧ user ≠ plugin.author := by
  have hid := (findById_some h).1
  unfold gateRejects
  rw [Bool.and_eq_true, findPurchase_isNone_iff, hid]
  simp only [bne_iff_ne, ne_eq]
  constructor
  · rintro ⟨h1, h2⟩
    exact ⟨h1, fun e => h2 e.symm⟩
  · rintro ⟨h1, h2⟩
    exact ⟨h1, fun e => h2 e.symm⟩

/-! ## The access gate -/

/-- C1: for an existing plugin, reviewing and downloading answer 403 exactly
when the caller has no purchase of the plugin and is not its author; a
rejected call leaves the whole store (plugin and ledger) as it was. -/
theorem gate_forbidden_iff (lib : JSLib) (s : Store) (user id : Nat) (plugin : Plugin)
    (body : ReviewBody) (h : findById s.plugins id = some plugin) :
    ((createPluginReview lib s user id body).1.forbidden = true ↔
        noPurchase s.purchases user id ∧ user ≠ plugin.author) ∧
    ((downloadPlugin s user id).1.forbidden = true ↔
        noPurchase s.purchases user id ∧ user ≠ plugin.author) ∧
    (noPurchase s.purchases user id ∧ user ≠ plugin.author →
        (createPluginReview lib s user id body).2 = s ∧ (downloadPlugin s user id).2 = s) := by
  have hg := gateRejects_iff s user id plugin h
  refine ⟨?_, ?_, ?_⟩
  · rw [← hg]
    unfold createPluginReview
    simp only [h]
    by_cases hr : gateRejects s user plugin = true
    · simp [hr, Response.forbidden]
    · by_cases hrev : (plugin.reviews.find? (fun r => r.user == user)).isSome = true
      · simp [hr, hrev, Response.forbidden]
      · cases hv : validateReview lib user (body.rating.toNumber lib) body.comment <;>
          simp [hr, hrev, hv, Response.forbidden]
  · rw [← hg]
    unfold downloadPlugin
    simp only [h]
    by_cases hr : gateRejects s user plugin = true
    · simp [hr, Response.forbidden]
    · cases hl : latestVersion plugin with
      | none => simp [hr, Response.forbidden]
      | some latest =>
        by_cases hf : existsSync s latest.filePath = true <;>
          simp [hr, hf, Response.forbidden]
  · intro hno
    have hr := hg.mpr hno
    constructor
    · unfold createPluginReview
      simp [h, hr]
    · unfold downloadPlugin
      simp [h, hr]

/-- Witness for C1: user 2 neither bought nor wrote the sample plugin. -/
theorem gate_forbidden_iff_witness :
    findById sampleStore.plugins 1 = some samplePlugin ∧
    (downloadPlugin sampleStore 2 1).1.forbidden = true ∧
    (createPluginReview sampleLib sampleStore 2 1 ⟨.num 5, .str "ok"⟩).2 = sampleStore :=
  ⟨by decide,
   (gate_forbidden_iff sampleLib sampleStore 2 1 samplePlugin ⟨.num 5, .str "ok"⟩
      (by decide)).2.1.mpr ⟨by simp [noPurchase, sampleStore], by decide⟩,
   ((gate_forbidden_iff sampleLib sampleStore 2 1 samplePlugin ⟨.num 5, .str "ok"⟩
      (by decide)).2.2 ⟨by simp [noPurchase, sampleStore], by decide⟩).1⟩

/-! ## The purchase ledger -/

theorem createPluginReview_purchases (lib : JSLib) (s : Store) (user id : Nat)
    (body : ReviewBody) :
    (createPluginReview lib s user id body).2.purchases = s.purchases := by
  unfold createPluginReview
  repeat' split
  all_goals rfl

theorem downloadPlugin_purchases (s : Store) (user id : Nat) :
    (downloadPlugin s user id).2.purchases = s.purchases := by
  unfold downloadPlugin
  repeat' split
  all_goals rfl

theorem addPluginVersion_purchases (lib : JSLib) (s : Store) (user id : Nat)
    (body : VersionBody) (files : ReqFiles) (now : Nat) :
    (addPluginVersion lib s user id body files now).2.purchases = s.purchases := by
  unfold addPluginVersion
  repeat' split
  all_goals rfl

theorem updatePlugin_purchases (lib : JSLib) (s : Store) (user id : Nat)
    (body : UpdateBody) (files : ReqFiles) (serverUrl : String) :
    (updatePlugin lib s user id body files serverUrl).2.purchases = s.purchases := by
  unfold updatePlugin
  repeat' split
  all_goals rfl

theorem createPlugin_purchases (lib : JSLib) (s : Store) (user : Nat)
    (body : CreateBody) (files : ReqFiles) (serverUrl : String) (now newId : Nat) :
    (createPlugin lib s user body files serverUrl now newId).2.purchases = s.purchases := by
  unfold createPlugin
  dsimp only
  repeat' split
  all_goals rfl

/-- Outcome of `createPurchase` on the ledger: unchanged, or one record for a
pair that had none. -/
theorem createPurchase_purchases (s : Store) (user pluginId : Nat) (transactionId : String) :
    (createPurchase s user pluginId transactionId).2.purchases = s.purchases ∨
    (noPurchase s.purchases user pluginId ∧
      ∃ price, (createPurchase s user pluginId transactionId).2.purchases =
        s.purchases ++ [{ user := user, plugin := pluginId, price := price,
                          transactionId := transactionId }]) := by
  unfold createPurchase
  cases hf : findById s.plugins pluginId with
  | none => exact Or.inl rfl
  | some plugin =>
    by_cases ha : (plugin.author == user) = true
    · simp [ha]
    · by_cases hp : (findPurchase s.purchases user pluginId).isSome = true
      · simp [ha, hp]
      · by_cases ht : (s.purchases.any (fun x => x.transactionId == transactionId)) = true
        · left
          simp only [ha, hp, ht]
          rfl
        · right
          have hno : noPurchase s.purchases user pluginId := by
            by_contra hc
            exact hp ((findPurchase_isSome_iff _ _ _).mpr hc)
          refine ⟨hno, plugin.price, ?_⟩
          simp only [ha, hp, ht]
          rfl

/-- Every request leaves the recorded purchases in place; the only possible
change is one appended record for a pair that had none. -/
theorem handle_purchases (lib : JSLib) (s : Store) (r : Request) :
    (handle lib s r).2.purchases = s.purchases ∨
    ∃ user pluginId price transactionId, noPurchase s.purchases user pluginId ∧
      (handle lib s r).2.purchases =
        s.purchases ++ [{ user := user, plugin := pluginId, price := price,
                          transactionId := transactionId }] := by
  cases r with
  | createPlugin user body files serverUrl now newId =>
    exact Or.inl (createPlugin_purchases lib _ user body files serverUrl now newId)
  | updatePlugin user id body files serverUrl =>
    exact Or.inl (updatePlugin_purchases lib _ user id body files serverUrl)
  | addPluginVersion user id body pluginFile now =>
    exact Or.inl (addPluginVersion_purchases lib _ user id body _ now)
  | createPluginReview user id body =>
    exact Or.inl (createPluginReview_purchases lib s user id body)
  | downloadPlugin user id => exact Or.inl (downloadPlugin_purchases s user id)
  | createPurchase user pluginId transactionId =>
    rcases createPurchase_purchases s user pluginId transactionId with h | ⟨hno, price, h⟩
    · exact Or.inl h
    · exact Or.inr ⟨user, pluginId, price, transactionId, hno, h⟩

theorem handle_ledgerUnique (lib : JSLib) (s : Store) (r : Request)
    (h : ledgerUnique s.purchases) : ledgerUnique (handle lib s r).2.purchases := by
  rcases handle_purchases lib s r with e | ⟨user, pluginId, price, transactionId, hno, e⟩
  · rw [e]; exact h
  · rw [e]
    unfold ledgerUnique at *
    rw [List.map_append, List.nodup_append]
    refine ⟨h, by simp, ?_⟩
    intro a ha hb
    simp only [List.map_cons, List.map_nil, List.mem_singleton] at hb
    rw [List.mem_map] at ha
    obtain ⟨x, hx, hxa⟩ := ha
    subst hb
    simp only [Prod.mk.injEq] at hxa
    exact hno x hx hxa

theorem run_ledgerUnique (lib : JSLib) (rs : List Request) :
    ∀ s : Store, ledgerUnique s.purchases → ledgerUnique (run lib s rs).purchases := by
  induction rs with
  | nil => intro s h; exact h
  | cons r rs ih => intro s h; exact ih _ (handle_ledgerUnique lib s r h)

/-- C2: for a user who is not the author and has no purchase of an existing
plugin, and a generated transaction id not yet in the ledger, the first
`createPurchase` answers 201 and appends exactly one purchase, and a second
call for the same pair fails with "already purchased" and changes nothing;
every run of requests from a store with an empty ledger ends with at most one
purchase per (user, plugin) pair. -/
theorem purchase_twice (lib : JSLib) :
    (∀ (s : Store) (user pluginId : Nat) (plugin : Plugin) (t1 t2 : String),
      findById s.plugins pluginId = some plugin → plugin.author ≠ user →
      noPurchase s.purchases user pluginId →
      (∀ x ∈ s.purchases, x.transactionId ≠ t1) →
      createPurchase s user pluginId t1 =
        (.ok 201, { s with purchases := s.purchases ++
          [{ user := user, plugin := pluginId, price := plugin.price, transactionId := t1 }] }) ∧
      createPurchase (createPurchase s user pluginId t1).2 user pluginId t2 =
        (.fail 400 "You have already purchased this plugin",
          (createPurchase s user pluginId t1).2)) ∧
    (∀ (s : Store) (rs : List Request), s.purchases = [] →
      ledgerUnique (run lib s rs).purchases) := by
  constructor
  · intro s user pluginId plugin t1 t2 hf ha hno hfresh
    have hp : (findPurchase s.purchases user pluginId).isSome = false := by
      have := (findPurchase_isNone_iff s.purchases user pluginId).mpr hno
      cases hq : findPurchase s.purchases user pluginId with
      | none => rfl
      | some x => rw [hq] at this; simp at this
    have ht : (s.purchases.any (fun x => x.transactionId == t1)) = false := by
      rw [List.any_eq_false]
      intro x hx
      simpa using hfresh x hx
    have h1 : createPurchase s user pluginId t1 =
        (.ok 201, { s with purchases := s.purchases ++
          [{ user := user, plugin := pluginId, price := plugin.price,
             transactionId := t1 }] }) := by
      unfold createPurchase
      simp [hf, ha, hp, ht]
    refine ⟨h1, ?_⟩
    rw [h1]
    have hp2 : (findPurchase (s.purchases ++
        [{ user := user, plugin := pluginId, price := plugin.price, transactionId := t1 }])
        user pluginId).isSome = true := by
      rw [findPurchase_isSome_iff]
      intro hc
      exact hc _ (List.mem_append_right _ (List.mem_singleton.mpr rfl)) ⟨rfl, rfl⟩
    unfold createPurchase
    simp [hf, ha, hp2]
  · intro s rs he
    apply run_ledgerUnique
    rw [he]
    exact List.nodup_nil

/-- Witness for C2: user 2 buys the sample plugin twice. -/
theorem purchase_twice_witness :
    findById sampleStore.plugins 1 = some samplePlugin ∧ samplePlugin.author ≠ 2 ∧
    createPurchase sampleStore 2 1 "aa" =
      (.ok 201, { sampleStore with purchases := sampleStore.purchases ++
        [{ user := 2, plugin := 1, price := samplePlugin.price, transactionId := "aa" }] }) ∧
    createPurchase (createPurchase sampleStore 2 1 "aa").2 2 1 "bb" =
      (.fail 400 "You have already purchased this plugin",
        (createPurchase sampleStore 2 1 "aa").2) :=
  ⟨by decide, by decide,
   (purchase_twice sampleLib).1 sampleStore 2 1 samplePlugin "aa" "bb" (by decide) (by decide)
     (by simp [noPurchase, sampleStore]) (by simp [sampleStore])⟩

/-- C5: for an existing plugin, `createPurchase` called by its author answers
400 "You cannot purchase your own plugin" and returns the store unchanged,
whatever the ledger holds. -/
theorem author_cannot_purchase (s : Store) (pluginId : Nat) (plugin : Plugin)
    (transactionId : String) (h : findById s.plugins pluginId = some plugin) :
    createPurchase s plugin.author pluginId transactionId =
      (.fail 400 "You cannot purchase your own plugin", s) := by
  unfold createPurchase
  simp [h]

/-- Witness for C5: user 1 wrote the sample plugin. -/
theorem author_cannot_purchase_witness :
    findById sampleStore.plugins 1 = some samplePlugin ∧
    createPurchase sampleStore 1 1 "aa" =
      (.fail 400 "You cannot purchase your own plugin", sampleStore) :=
  ⟨by decide, author_cannot_purchase sampleStore 1 samplePlugin "aa" (by decide)⟩

/-! ## Saving a plugin document -/

theorem foldl_rating_eq_sum (rs : List Review) (a : ℚ) :
    rs.foldl (fun acc review => acc + review.rating) a = a + (rs.map (fun r => r.rating)).sum := by
  induction rs generalizing a with
  | nil => simp
  | cons r rs ih => simp [List.foldl_cons, ih, add_assoc]

theorem preSave_averageRating (p : Plugin) : (preSave p).averageRating = meanRating p.reviews := by
  unfold preSave meanRating
  cases hr : p.reviews with
  | nil => simp
  | cons r rs =>
    have hpos : (r :: rs).length > 0 := by simp
    simp only [hpos, if_true, foldl_rating_eq_sum, zero_add]
    simp

@[simp] theorem preSave_id (p : Plugin) : (preSave p).id = p.id := by
  unfold preSave; split <;> rfl

@[simp] theorem preSave_reviews (p : Plugin) : (preSave p).reviews = p.reviews := by
  unfold preSave; split <;> rfl

@[simp] theorem preSave_versions (p : Plugin) : (preSave p).versions = p.versions := by
  unfold preSave; split <;> rfl

@[simp] theorem preSave_author (p : Plugin) : (preSave p).author = p.author := by
  unfold preSave; split <;> rfl

@[simp] theorem preSave_downloadCount (p : Plugin) :
    (preSave p).downloadCount = p.downloadCount := by
  unfold preSave; split <;> rfl

@[simp] theorem preSave_price (p : Plugin) : (preSave p).price = p.price := by
  unfold preSave; split <;> rfl

theorem findById_replaceDoc_same (ps : List Plugin) (id : Nat) (p q : Plugin)
    (h : findById ps id = some p) (hq : q.id = id) :
    findById (replaceDoc ps q) id = some q := by
  induction ps with
  | nil => simp [findById] at h
  | cons a as ih =>
    unfold findById at h ih ⊢
    by_cases ha : a.id = id
    · simp [replaceDoc, ha, hq]
    · have hne : ¬ a.id = q.id := by rw [hq]; exact ha
      simp only [replaceDoc, beq_iff_eq, hne, if_false]
      rw [List.find?_cons_of_neg _ (by simpa using ha)] at h ⊢
      exact ih h

theorem findById_replaceDoc_other (ps : List Plugin) (id : Nat) (q : Plugin)
    (hq : q.id ≠ id) : findById (replaceDoc ps q) id = findById ps id := by
  induction ps with
  | nil => rfl
  | cons a as ih =>
    unfold findById at ih ⊢
    by_cases ha : a.id = q.id
    · have hne : ¬ a.id = id := by rw [ha]; exact hq
      simp only [replaceDoc, beq_iff_eq, ha, if_true]
      rw [List.find?_cons_of_neg _ (by simpa using hq),
        List.find?_cons_of_neg _ (by simpa using hne)]
    · simp only [replaceDoc, beq_iff_eq, ha, if_false]
      by_cases hid : a.id = id
      · rw [List.find?_cons_of_pos _ (by simpa using hid),
          List.find?_cons_of_pos _ (by simpa using hid)]
      · rw [List.find?_cons_of_neg _ (by simpa using hid),
          List.find?_cons_of_neg _ (by simpa using hid)]
        exact ih

theorem mem_replaceDoc (ps : List Plugin) (q x : Plugin) (h : x ∈ replaceDoc ps q) :
    x ∈ ps ∨ x = q := by
  induction ps with
  | nil => simp [replaceDoc] at h
  | cons a as ih =>
    simp only [replaceDoc] at h
    split at h
    · rcases List.mem_cons.mp h with e | e
      · exact Or.inr e
      · exact Or.inl (List.mem_cons_of_mem _ e)
    · rcases List.mem_cons.mp h with e | e
      · exact Or.inl (e ▸ List.mem_cons_self _ _)
      · rcases ih e with e1 | e1
        · exact Or.inl (List.mem_cons_of_mem _ e1)
        · exact Or.inr e1

/-- After `save`, looking the document up again yields the saved document
with the pre-save hook applied. -/
theorem findById_savePlugin (s : Store) (id : Nat) (p q : Plugin)
    (h : findById s.plugins id = some p) (hq : q.id = id) :
    findById (savePlugin s q).plugins id = some (preSave q) := by
  unfold savePlugin
  exact findById_replaceDoc_same s.plugins id p (preSave q) h (by simpa using hq)

/-! ## What a successful call does -/

theorem createPluginReview_success (lib : JSLib) (s : Store) (user id : Nat) (body : ReviewBody)
    (plugin : Plugin) (h : findById s.plugins id = some plugin)
    (hs : (createPluginReview lib s user id body).1.success = true) :
    ∃ review, validateReview lib user (body.rating.toNumber lib) body.comment = some review ∧
      gateRejects s user plugin = false ∧
      plugin.reviews.find? (fun r => r.user == user) = none ∧
      createPluginReview lib s user id body =
        (.ok 201, savePlugin s { plugin with reviews := plugin.reviews ++ [review] }) := by
  unfold createPluginReview at hs ⊢
  simp only [h] at hs ⊢
  by_cases hr : gateRejects s user plugin = true
  · simp [hr, Response.success] at hs
  · by_cases hrev : (plugin.reviews.find? (fun r => r.user == user)).isSome = true
    · simp [hr, hrev, Response.success] at hs
    · cases hv : validateReview lib user (body.rating.toNumber lib) body.comment with
      | none => simp [hr, hrev, hv, Response.success] at hs
      | some review =>
        refine ⟨review, rfl, by simpa using hr, ?_, ?_⟩
        · cases hq : plugin.reviews.find? (fun r => r.user == user) with
          | none => rfl
          | some x => rw [hq] at hrev; simp at hrev
        · simp [hr, hrev]

theorem downloadPlugin_success (s : Store) (user id : Nat) (plugin : Plugin)
    (h : findById s.plugins id = some plugin)
    (hs : (downloadPlugin s user id).1.success = true) :
    ∃ latest, latestVersion plugin = some latest ∧ existsSync s latest.filePath = true ∧
      gateRejects s user plugin = false ∧
      downloadPlugin s user id =
        (.ok 200, savePlugin s
          { plugin with
            versions := plugin.versions.set (plugin.versions.length - 1)
              { latest with downloadCount := latest.downloadCount + 1 }
            downloadCount := plugin.downloadCount + 1 }) := by
  unfold downloadPlugin at hs ⊢
  simp only [h] at hs ⊢
  by_cases hr : gateRejects s user plugin = true
  · simp [hr, Response.success] at hs
  · cases hl : latestVersion plugin with
    | none => simp [hr, hl, Response.success] at hs
    | some latest =>
      by_cases hf : existsSync s latest.filePath = true
      · exact ⟨latest, rfl, hf, by simpa using hr, by simp [hr, hf]⟩
      · simp [hr, hl, hf, Response.success] at hs

theorem addPluginVersion_success (lib : JSLib) (s : Store) (user id : Nat) (body : VersionBody)
    (files : ReqFiles) (now : Nat) (plugin : Plugin)
    (h : findById s.plugins id = some plugin)
    (hs : (addPluginVersion lib s user id body files now).1.success = true) :
    ∃ pluginFile v, files.pluginFile = some pluginFile ∧
      validateVersion lib body.versionNumber body.minecraftVersion body.changelog
        pluginFile.path now = some v ∧
      plugin.author = user ∧
      addPluginVersion lib s user id body files now =
        (.ok 200, savePlugin s { plugin with versions := plugin.versions ++ [v] }) := by
  unfold addPluginVersion at hs ⊢
  simp only [h] at hs ⊢
  by_cases ha : plugin.author = user
  · subst ha
    cases hpf : files.pluginFile with
    | none => simp [hpf, Response.success] at hs
    | some pluginFile =>
      cases hv : validateVersion lib body.versionNumber body.minecraftVersion body.changelog
          pluginFile.path now with
      | none => simp [hpf, hv, Response.success] at hs
      | some v => exact ⟨pluginFile, v, rfl, hv, rfl, by simp [hv]⟩
  · simp [ha, Response.success] at hs

theorem updatePlugin_success (lib : JSLib) (s : Store) (user id : Nat) (body : UpdateBody)
    (files : ReqFiles) (serverUrl : String) (plugin : Plugin)
    (h : findById s.plugins id = some plugin)
    (hs : (updatePlugin lib s user id body files serverUrl).1.success = true) :
    ∃ q : Plugin, q.id = plugin.id ∧ q.author = plugin.author ∧ q.versions = plugin.versions ∧
      q.reviews = plugin.reviews ∧ q.downloadCount = plugin.downloadCount ∧
      plugin.author = user ∧
      updatePlugin lib s user id body files serverUrl = (.ok 200, savePlugin s q) := by
  unfold updatePlugin at hs ⊢
  simp only [h] at hs ⊢
  by_cases ha : plugin.author = user
  · subst ha
    simp only [bne_self_eq_false, Bool.false_eq_true, if_false] at hs ⊢
    split at hs
    · simp [Response.success] at hs
    · split at hs
      · refine ⟨_, ?_, ?_, ?_, ?_, ?_, trivial, rfl⟩ <;> rfl
      · simp [Response.success] at hs
  · simp [ha, Response.success] at hs

/-! ## The average rating -/

theorem meanRating_of_ne_nil (rs : List Review) (h : rs ≠ []) :
    meanRating rs = (rs.map (fun r => r.rating)).sum / (rs.length : ℚ) := by
  unfold meanRating
  simp [h]

theorem createPluginReview_failure (lib : JSLib) (s : Store) (user id : Nat) (body : ReviewBody) :
    (createPluginReview lib s user id body).1.success = false →
    (createPluginReview lib s user id body).2 = s := by
  unfold createPluginReview
  repeat' split
  all_goals simp [Response.success]

theorem downloadPlugin_failure (s : Store) (user id : Nat) :
    (downloadPlugin s user id).1.success = false → (downloadPlugin s user id).2 = s := by
  unfold downloadPlugin
  repeat' split
  all_goals simp [Response.success]

theorem createPurchase_failure (s : Store) (user pluginId : Nat) (transactionId : String) :
    (createPurchase s user pluginId transactionId).1.success = false →
    (createPurchase s user pluginId transactionId).2 = s := by
  unfold createPurchase
  repeat' split
  all_goals simp [Response.success]

theorem addPluginVersion_failure (lib : JSLib) (s : Store) (user id : Nat) (body : VersionBody)
    (files : ReqFiles) (now : Nat) :
    (addPluginVersion lib s user id body files now).1.success = false →
    (addPluginVersion lib s user id body files now).2 = s := by
  unfold addPluginVersion
  repeat' split
  all_goals simp [Response.success]

theorem updatePlugin_failure (lib : JSLib) (s : Store) (user id : Nat) (body : UpdateBody)
    (files : ReqFiles) (serverUrl : String) :
    (updatePlugin lib s user id body files serverUrl).1.success = false →
    (updatePlugin lib s user id body files serverUrl).2 = s := by
  unfold updatePlugin
  repeat' split
  all_goals simp [Response.success]

theorem createPlugin_failure (lib : JSLib) (s : Store) (user : Nat) (body : CreateBody)
    (files : ReqFiles) (serverUrl : String) (now newId : Nat) :
    (createPlugin lib s user body files serverUrl now newId).1.success = false →
    (createPlugin lib s user body files serverUrl now newId).2 = s := by
  unfold createPlugin
  dsimp only
  repeat' split
  all_goals simp [Response.success]

theorem validateReview_user (lib : JSLib) (user : Nat) (rating : Option ℚ) (comment : JSVal)
    (review : Review) (h : validateReview lib user rating comment = some review) :
    review.user = user := by
  unfold validateReview at h
  split at h
  · split at h
    · simp only [Option.some.injEq] at h
      rw [← h]
    · simp at h
  · simp at h

theorem validateReview_rating (lib : JSLib) (user : Nat) (rating : Option ℚ) (comment : JSVal)
    (review : Review) (h : validateReview lib user rating comment = some review) :
    rating = some review.rating ∧ 1 ≤ review.rating ∧ review.rating ≤ 5 := by
  unfold validateReview at h
  split at h
  · rename_i q c hq hc
    split at h
    · rename_i hb
      simp only [Option.some.injEq] at h
      rw [← h]
      simpa using hb
    · simp at h
  · simp at h

/-! ## How a request changes the plugin collection -/

theorem mem_savePlugin (s : Store) (q x : Plugin) (h : x ∈ (savePlugin s q).plugins) :
    x ∈ s.plugins ∨ x = preSave q :=
  mem_replaceDoc s.plugins (preSave q) x h

theorem gate_open (s : Store) (user id : Nat) (plugin : Plugin)
    (h : findById s.plugins id = some plugin) (hg : gateRejects s user plugin = false) :
    user = plugin.author ∨ ¬ noPurchase s.purchases user plugin.id := by
  have hid := (findById_some h).1
  have := gateRejects_iff s user id plugin h
  rw [hg] at this
  by_contra hc
  push_neg at hc
  rw [hid] at hc
  exact absurd (this.mpr ⟨hc.2, hc.1⟩) (by simp)

theorem createPluginReview_plugins (lib : JSLib) (s : Store) (user id : Nat) (body : ReviewBody)
    (x : Plugin) (hx : x ∈ (createPluginReview lib s user id body).2.plugins) :
    x ∈ s.plugins ∨ ∃ old ∈ s.plugins, Evolves s.purchases old x := by
  by_cases hs : (createPluginReview lib s user id body).1.success = true
  · cases hf : findById s.plugins id with
    | none => simp [createPluginReview, hf, Response.success] at hs
    | some plugin =>
      obtain ⟨review, hv, hg, hnone, e⟩ :=
        createPluginReview_success lib s user id body plugin hf hs
      rw [e] at hx
      rcases mem_savePlugin s _ x hx with h1 | h1
      · exact Or.inl h1
      · right
        refine ⟨plugin, (findById_some hf).2, ?_⟩
        subst h1
        refine ⟨by simp, by simp, by simp, Or.inr ⟨review, by simp, ?_, ?_⟩⟩
        · intro r hr
          rw [validateReview_user lib user _ _ review hv]
          have := List.find?_eq_none.mp hnone r hr
          simpa using this
        · rw [validateReview_user lib user _ _ review hv]
          exact gate_open s user id plugin hf hg
  · rw [createPluginReview_failure lib s user id body (by simpa using hs)] at hx
    exact Or.inl hx

theorem downloadPlugin_plugins (s : Store) (user id : Nat)
    (x : Plugin) (hx : x ∈ (downloadPlugin s user id).2.plugins) :
    x ∈ s.plugins ∨ ∃ old ∈ s.plugins, Evolves s.purchases old x := by
  by_cases hs : (downloadPlugin s user id).1.success = true
  · cases hf : findById s.plugins id with
    | none => simp [downloadPlugin, hf, Response.success] at hs
    | some plugin =>
      obtain ⟨latest, -, -, -, e⟩ := downloadPlugin_success s user id plugin hf hs
      rw [e] at hx
      rcases mem_savePlugin s _ x hx with h1 | h1
      · exact Or.inl h1
      · right
        refine ⟨plugin, (findById_some hf).2, ?_⟩
        subst h1
        exact ⟨by simp, by simp, by simp, Or.inl (by simp)⟩
  · rw [downloadPlugin_failure s user id (by simpa using hs)] at hx
    exact Or.inl hx

theorem addPluginVersion_plugins (lib : JSLib) (s : Store) (user id : Nat) (body : VersionBody)
    (files : ReqFiles) (now : Nat)
    (x : Plugin) (hx : x ∈ (addPluginVersion lib s user id body files now).2.plugins) :
    x ∈ s.plugins ∨ ∃ old ∈ s.plugins, Evolves s.purchases old x := by
  by_cases hs : (addPluginVersion lib s user id body files now).1.success = true
  · cases hf : findById s.plugins id with
    | none => simp [addPluginVersion, hf, Response.success] at hs
    | some plugin =>
      obtain ⟨pluginFile, v, -, -, -, e⟩ :=
        addPluginVersion_success lib s user id body files now plugin hf hs
      rw [e] at hx
      rcases mem_savePlugin s _ x hx with h1 | h1
      · exact Or.inl h1
      · right
        refine ⟨plugin, (findById_some hf).2, ?_⟩
        subst h1
        exact ⟨by simp, by simp, by simp, Or.inl (by simp)⟩
  · rw [addPluginVersion_failure lib s user id body files now (by simpa using hs)] at hx
    exact Or.inl hx

theorem updatePlugin_plugins (lib : JSLib) (s : Store) (user id : Nat) (body : UpdateBody)
    (files : ReqFiles) (serverUrl : String)
    (x : Plugin) (hx : x ∈ (updatePlugin lib s user id body files serverUrl).2.plugins) :
    x ∈ s.plugins ∨ ∃ old ∈ s.plugins, Evolves s.purchases old x := by
  by_cases hs : (updatePlugin lib s user id body files serverUrl).1.success = true
  · cases hf : findById s.plugins id with
    | none => simp [updatePlugin, hf, Response.success] at hs
    | some plugin =>
      obtain ⟨q, hqid, hqa, hqv, hqr, -, -, e⟩ :=
        updatePlugin_success lib s user id body files serverUrl plugin hf hs
      rw [e] at hx
      rcases mem_savePlugin s _ x hx with h1 | h1
      · exact Or.inl h1
      · right
        refine ⟨plugin, (findById_some hf).2, ?_⟩
        subst h1
        exact ⟨by simp [hqid], by simp [hqa], by simp [hqv], Or.inl (by simp [hqr])⟩
  · rw [updatePlugin_failure lib s user id body files serverUrl (by simpa using hs)] at hx
    exact Or.inl hx

theorem createPlugin_plugins (lib : JSLib) (s : Store) (user : Nat) (body : CreateBody)
    (files : ReqFiles) (serverUrl : String) (now newId : Nat)
    (x : Plugin) (hx : x ∈ (createPlugin lib s user body files serverUrl now newId).2.plugins) :
    x ∈ s.plugins ∨ (x.reviews = [] ∧ x.author = user ∧ x.versions.length = 1) := by
  revert hx
  unfold createPlugin
  dsimp only
  repeat' split
  all_goals try (intro hx; exact Or.inl hx)
  rename_i plugin hv _
  intro hx
  simp only [List.mem_append, List.mem_singleton] at hx
  rcases hx with h1 | h1
  · exact Or.inl h1
  · right
    subst h1
    unfold validateNewPlugin at hv
    split at hv
    · simp only [Option.some.injEq] at hv
      subst hv
      simp
    · simp at hv

theorem createPurchase_plugins (s : Store) (user pluginId : Nat) (transactionId : String) :
    (createPurchase s user pluginId transactionId).2.plugins = s.plugins := by
  unfold createPurchase
  repeat' split
  all_goals rfl

/-- Every document in the collection after a request was there before, or was
just created without reviews, or evolved from a stored document. -/
theorem handle_plugins (lib : JSLib) (s : Store) (r : Request) (x : Plugin)
    (hx : x ∈ (handle lib s r).2.plugins) :
    x ∈ s.plugins ∨ (x.reviews = [] ∧ x.versions.length = 1) ∨
      ∃ old ∈ s.plugins, Evolves s.purchases old x := by
  cases r with
  | createPlugin user body files serverUrl now newId =>
    rcases createPlugin_plugins lib _ user body files serverUrl now newId x hx with h | h
    · exact Or.inl h
    · exact Or.inr (Or.inl ⟨h.1, h.2.2⟩)
  | updatePlugin user id body files serverUrl =>
    rcases updatePlugin_plugins lib _ user id body files serverUrl x hx with h | h
    · exact Or.inl h
    · exact Or.inr (Or.inr h)
  | addPluginVersion user id body pluginFile now =>
    rcases addPluginVersion_plugins lib _ user id body _ now x hx with h | h
    · exact Or.inl h
    · exact Or.inr (Or.inr h)
  | createPluginReview user id body =>
    rcases createPluginReview_plugins lib s user id body x hx with h | h
    · exact Or.inl h
    · exact Or.inr (Or.inr h)
  | downloadPlugin user id =>
    rcases downloadPlugin_plugins s user id x hx with h | h
    · exact Or.inl h
    · exact Or.inr (Or.inr h)
  | createPurchase user pluginId transactionId =>
    simp only [handle] at hx
    rw [createPurchase_plugins] at hx
    exact Or.inl hx

/-- Purchases are never removed. -/
theorem handle_noPurchase (lib : JSLib) (s : Store) (r : Request) (user plugin : Nat)
    (h : noPurchase (handle lib s r).2.purchases user plugin) :
    noPurchase s.purchases user plugin := by
  rcases handle_purchases lib s r with e | ⟨u, p, price, t, -, e⟩
  · rw [e] at h; exact h
  · rw [e] at h
    intro x hx
    exact h x (List.mem_append_left _ hx)

/-! ## One review per user -/

theorem handle_reviewsUnique (lib : JSLib) (s : Store) (r : Request)
    (h : ∀ p ∈ s.plugins, reviewsUnique p) :
    ∀ p ∈ (handle lib s r).2.plugins, reviewsUnique p := by
  intro x hx
  rcases handle_plugins lib s r x hx with h1 | ⟨h1, -⟩ | ⟨old, hold, -, -, -, h1⟩
  · exact h x h1
  · unfold reviewsUnique
    rw [h1]
    exact List.nodup_nil
  · rcases h1 with e | ⟨review, e, hne, -⟩
    · unfold reviewsUnique
      rw [e]
      exact h old hold
    · unfold reviewsUnique
      rw [e, List.map_append, List.nodup_append]
      refine ⟨h old hold, by simp, ?_⟩
      intro a ha hb
      simp only [List.map_cons, List.map_nil, List.mem_singleton] at hb
      obtain ⟨r0, hr0, hr0a⟩ := List.mem_map.mp ha
      exact hne r0 hr0 (hr0a.trans hb)

theorem handle_reviewersAdmitted (lib : JSLib) (s : Store) (r : Request)
    (h : reviewersAdmitted s) : reviewersAdmitted (handle lib s r).2 := by
  intro x hx rev hrev
  have mono : ∀ u p, ¬ noPurchase s.purchases u p →
      ¬ noPurchase (handle lib s r).2.purchases u p :=
    fun u p hn hc => hn (handle_noPurchase lib s r u p hc)
  rcases handle_plugins lib s r x hx with h1 | ⟨h1, -⟩ | ⟨old, hold, hid, hau, -, h1⟩
  · rcases h x h1 rev hrev with e | e
    · exact Or.inl e
    · exact Or.inr (mono _ _ e)
  · rw [h1] at hrev
    simp at hrev
  · rw [hid, hau]
    have key : ∀ r0 ∈ old.reviews,
        r0.user = old.author ∨ ¬ noPurchase (handle lib s r).2.purchases r0.user old.id := by
      intro r0 hr0
      rcases h old hold r0 hr0 with e | e
      · exact Or.inl e
      · exact Or.inr (mono _ _ e)
    rcases h1 with e | ⟨review, e, -, hacc⟩
    · rw [e] at hrev
      exact key rev hrev
    · rw [e] at hrev
      rcases List.mem_append.mp hrev with h2 | h2
      · exact key rev h2
      · rw [List.mem_singleton.mp h2]
        rcases hacc with e1 | e1
        · exact Or.inl e1
        · exact Or.inr (mono _ _ e1)

theorem run_reviews (lib : JSLib) (rs : List Request) :
    ∀ s : Store, (∀ p ∈ s.plugins, reviewsUnique p) → reviewersAdmitted s →
      (∀ p ∈ (run lib s rs).plugins, reviewsUnique p) ∧ reviewersAdmitted (run lib s rs) := by
  induction rs with
  | nil => intro s h1 h2; exact ⟨h1, h2⟩
  | cons r rs ih =>
    intro s h1 h2
    exact ih _ (handle_reviewsUnique lib s r h1) (handle_reviewersAdmitted lib s r h2)

theorem find_review_isSome (plugin : Plugin) (user : Nat)
    (h : ∃ r ∈ plugin.reviews, r.user = user) :
    (plugin.reviews.find? (fun r => r.user == user)).isSome = true := by
  obtain ⟨r, hr, hu⟩ := h
  rw [List.find?_isSome]
  exact ⟨r, hr, by simpa using hu⟩

theorem createPluginReview_again (lib : JSLib) (s : Store) (user id : Nat) (body : ReviewBody)
    (plugin : Plugin) (h : findById s.plugins id = some plugin)
    (hrev : ∃ r ∈ plugin.reviews, r.user = user) :
    (gateRejects s user plugin = false →
      createPluginReview lib s user id body =
        (.fail 400 "You have already reviewed this plugin", s)) ∧
    (createPluginReview lib s user id body).1.success = false ∧
    (createPluginReview lib s user id body).2 = s := by
  have hsome := find_review_isSome plugin user hrev
  have hfail : (createPluginReview lib s user id body).1.success = false := by
    unfold createPluginReview
    simp only [h]
    by_cases hg : gateRejects s user plugin = true
    · simp [hg, Response.success]
    · simp [hg, hsome, Response.success]
  refine ⟨?_, hfail, createPluginReview_failure lib s user id body hfail⟩
  intro hg
  unfold createPluginReview
  simp [h, hg, hsome]

/-- C4: `createPluginReview` keeps the reviews of a plugin free of repeated
user ids.  A caller who already has a review never succeeds and the store is
unchanged, the answer being 400 "You have already reviewed this plugin"
once the caller is past the purchase gate; a successful call appends exactly
one review, by the caller, who had none.  In every state reached from the
empty store no plugin has two reviews by one user, and there a caller with a
review always gets the 400 answer. -/
theorem review_once (lib : JSLib) :
    (∀ (s : Store) (user id : Nat) (body : ReviewBody) (plugin : Plugin),
      findById s.plugins id = some plugin → reviewsUnique plugin →
      ∃ saved, findById (createPluginReview lib s user id body).2.plugins id = some saved ∧
        reviewsUnique saved ∧
        ((∃ r ∈ plugin.reviews, r.user = user) →
          (createPluginReview lib s user id body).1.success = false ∧
          (createPluginReview lib s user id body).2 = s ∧
          (gateRejects s user plugin = false →
            (createPluginReview lib s user id body).1 =
              .fail 400 "You have already reviewed this plugin")) ∧
        ((createPluginReview lib s user id body).1.success = true →
          (∀ r ∈ plugin.reviews, r.user ≠ user) ∧
          ∃ review, review.user = user ∧ saved.reviews = plugin.reviews ++ [review])) ∧
    (∀ (rs : List Request),
      (∀ p ∈ (run lib Store.empty rs).plugins, reviewsUnique p) ∧
      ∀ (user id : Nat) (body : ReviewBody) (plugin : Plugin),
        findById (run lib Store.empty rs).plugins id = some plugin →
        (∃ r ∈ plugin.reviews, r.user = user) →
        createPluginReview lib (run lib Store.empty rs) user id body =
          (.fail 400 "You have already reviewed this plugin", run lib Store.empty rs)) := by
  constructor
  · intro s user id body plugin h hu
    have hid := (findById_some h).1
    by_cases hs : (createPluginReview lib s user id body).1.success = true
    · obtain ⟨review, hv, hg, hnone, e⟩ :=
        createPluginReview_success lib s user id body plugin h hs
      have hru := validateReview_user lib user _ _ review hv
      have hne : ∀ r ∈ plugin.reviews, r.user ≠ user := by
        intro r hr
        simpa using List.find?_eq_none.mp hnone r hr
      refine ⟨preSave { plugin with reviews := plugin.reviews ++ [review] }, ?_, ?_, ?_, ?_⟩
      · rw [e]
        exact findById_savePlugin s id plugin _ h hid
      · unfold reviewsUnique at hu ⊢
        rw [preSave_reviews]
        simp only [List.map_append, List.map_cons, List.map_nil]
        rw [List.nodup_append]
        refine ⟨hu, by simp, ?_⟩
        intro a ha hb
        simp only [List.mem_singleton] at hb
        obtain ⟨r0, hr0, hr0a⟩ := List.mem_map.mp ha
        exact hne r0 hr0 (hr0a.trans (hb.trans hru))
      · intro hrev
        obtain ⟨r, hr, hru2⟩ := hrev
        exact absurd hru2 (hne r hr)
      · intro _
        exact ⟨hne, review, hru, by simp⟩
    · have hf : (createPluginReview lib s user id body).1.success = false := by simpa using hs
      have e := createPluginReview_failure lib s user id body hf
      refine ⟨plugin, by rw [e]; exact h, hu, ?_, ?_⟩
      · intro hrev
        obtain ⟨h1, h2, h3⟩ := createPluginReview_again lib s user id body plugin h hrev
        exact ⟨h2, h3, fun hg => by rw [h1 hg]⟩
      · intro h1
        exact absurd h1 hs
  · intro rs
    have hinv := run_reviews lib rs Store.empty
      (by intro p hp; simp [Store.empty] at hp)
      (by intro p hp; simp [Store.empty] at hp)
    refine ⟨hinv.1, ?_⟩
    intro user id body plugin h hrev
    have hg : gateRejects (run lib Store.empty rs) user plugin = false := by
      obtain ⟨r, hr, hru⟩ := hrev
      have hadm := hinv.2 plugin (findById_some h).2 r hr
      rw [hru] at hadm
      cases hgr : gateRejects (run lib Store.empty rs) user plugin with
      | false => rfl
      | true =>
        have := (gateRejects_iff _ user id plugin h).mp hgr
        rw [(findById_some h).1] at hadm
        rcases hadm with e | e
        · exact absurd e this.2
        · exact absurd this.1 e
    exact (createPluginReview_again lib _ user id body plugin h hrev).1 hg

/-- Witness for C4: user 2 already reviewed the plugin and tries again. -/
theorem review_once_witness :
    findById reviewedStore.plugins 1 = some reviewedPlugin ∧ reviewsUnique reviewedPlugin ∧
    ∃ saved,
      findById (createPluginReview sampleLib reviewedStore 2 1
        ⟨.num 5, .str "again"⟩).2.plugins 1 = some saved ∧
      reviewsUnique saved ∧
      ((∃ r ∈ reviewedPlugin.reviews, r.user = 2) →
        (createPluginReview sampleLib reviewedStore 2 1 ⟨.num 5, .str "again"⟩).1.success
          = false ∧
        (createPluginReview sampleLib reviewedStore 2 1 ⟨.num 5, .str "again"⟩).2
          = reviewedStore ∧
        (gateRejects reviewedStore 2 reviewedPlugin = false →
          (createPluginReview sampleLib reviewedStore 2 1 ⟨.num 5, .str "again"⟩).1 =
            .fail 400 "You have already reviewed this plugin")) ∧
      ((createPluginReview sampleLib reviewedStore 2 1 ⟨.num 5, .str "again"⟩).1.success
          = true →
        (∀ r ∈ reviewedPlugin.reviews, r.user ≠ 2) ∧
        ∃ review, review.user = 2 ∧ saved.reviews = reviewedPlugin.reviews ++ [review]) :=
  ⟨by decide, by simp [reviewsUnique, reviewedPlugin],
   (review_once sampleLib).1 reviewedStore 2 1 ⟨.num 5, .str "again"⟩ reviewedPlugin
     (by decide) (by simp [reviewsUnique, reviewedPlugin])⟩

/-! ## Version history -/

theorem validateVersion_fields (lib : JSLib) (vn mv cl : JSVal) (path : String) (now : Nat)
    (v : Version) (h : validateVersion lib vn mv cl path now = some v) :
    v.filePath = path ∧ v.releaseDate = now ∧ v.downloadCount = 0 := by
  unfold validateVersion at h
  split at h
  · split at h
    · simp at h
    · simp only [Option.some.injEq] at h
      subst h
      exact ⟨rfl, rfl, rfl⟩
  · simp at h

theorem runOk_addVersions (lib : JSLib) (id : Nat) (calls : List VersionCall) :
    ∀ (s s' : Store) (plugin : Plugin), findById s.plugins id = some plugin →
      runOk lib s (calls.map (VersionCall.request id)) = some s' →
      ∃ vs saved, findById s'.plugins id = some saved ∧
        List.Forall₂ (VersionCall.appends lib) calls vs ∧
        saved.versions = plugin.versions ++ vs := by
  induction calls with
  | nil =>
    intro s s' plugin h hrun
    simp only [List.map_nil, runOk, Option.some.injEq] at hrun
    subst hrun
    exact ⟨[], plugin, h, List.Forall₂.nil, by simp⟩
  | cons c cs ih =>
    intro s s' plugin h hrun
    simp only [List.map_cons, runOk] at hrun
    split at hrun
    · rename_i hs
      have hid := (findById_some h).1
      simp only [VersionCall.request, handle] at hs hrun
      have h0 : findById (multerStore s
          { pluginFile := c.pluginFile, thumbnailFile := none }).plugins id = some plugin := h
      obtain ⟨f, v, hf, hv, -, e⟩ := addPluginVersion_success lib _ c.user id c.body
        { pluginFile := c.pluginFile, thumbnailFile := none } c.now plugin h0 hs
      rw [e] at hrun
      have h1 := findById_savePlugin _ id plugin
        { plugin with versions := plugin.versions ++ [v] } h0 hid
      obtain ⟨vs, saved, hfind, hall, hver⟩ := ih _ s' _ h1 hrun
      refine ⟨v :: vs, saved, hfind, List.Forall₂.cons ?_ hall, ?_⟩
      · exact ⟨f, hf, hv, validateVersion_fields lib _ _ _ _ _ v hv⟩
      · rw [hver]
        simp
    · simp at hrun

/-- C6: after N consecutive successful `addPluginVersion` calls on a plugin,
its versions are the original versions, unchanged and in order, followed by
the N versions the calls built, in call order: the length is initial + N,
position i below the initial length holds the original i-th version, position
initial + i holds the i-th appended version, and for N > 0 the version that
`downloadPlugin` takes as latest is the one appended by the last call. -/
theorem addVersion_appends (lib : JSLib) (s s' : Store) (id : Nat) (plugin : Plugin)
    (calls : List VersionCall) (h : findById s.plugins id = some plugin)
    (hrun : runOk lib s (calls.map (VersionCall.request id)) = some s') :
    ∃ vs saved, findById s'.plugins id = some saved ∧
      List.Forall₂ (VersionCall.appends lib) calls vs ∧
      saved.versions = plugin.versions ++ vs ∧
      saved.versions.length = plugin.versions.length + calls.length ∧
      (∀ i, i < plugin.versions.length → saved.versions[i]? = plugin.versions[i]?) ∧
      (∀ i, i < calls.length → saved.versions[plugin.versions.length + i]? = vs[i]?) ∧
      (calls ≠ [] → latestVersion saved = vs.getLast? ∧ (latestVersion saved).isSome = true) := by
  obtain ⟨vs, saved, hfind, hall, hver⟩ := runOk_addVersions lib id calls s s' plugin h hrun
  have hlen : vs.length = calls.length := (List.Forall₂.length_eq hall).symm
  refine ⟨vs, saved, hfind, hall, hver, ?_, ?_, ?_, ?_⟩
  · rw [hver, List.length_append, hlen]
  · intro i hi
    rw [hver, List.getElem?_append_left hi]
  · intro i _
    rw [hver, List.getElem?_append_right (Nat.le_add_right _ _)]
    simp
  · intro hne
    have hvs : vs ≠ [] := by
      intro e
      rw [e] at hlen
      exact hne (List.length_eq_zero.mp hlen.symm)
    have hl : latestVersion saved = vs.getLast? := by
      unfold latestVersion
      rw [← List.getLast?_eq_getElem?, hver, List.getLast?_append]
      cases hg : vs.getLast? with
      | none => exact absurd (List.getLast?_eq_none_iff.mp hg) hvs
      | some v => rfl
    refine ⟨hl, ?_⟩
    rw [hl]
    cases hg : vs.getLast? with
    | none => exact absurd (List.getLast?_eq_none_iff.mp hg) hvs
    | some v => rfl

/-- Witness for C6: the author appends two versions to the sample plugin. -/
theorem addVersion_appends_witness :
    findById sampleStore.plugins 1 = some samplePlugin ∧
    runOk sampleLib sampleStore (sampleCalls.map (VersionCall.request 1))
      = some sampleStoreAfterCalls ∧
    ∃ vs saved, findById sampleStoreAfterCalls.plugins 1 = some saved ∧
      List.Forall₂ (VersionCall.appends sampleLib) sampleCalls vs ∧
      saved.versions = samplePlugin.versions ++ vs ∧
      saved.versions.length = samplePlugin.versions.length + sampleCalls.length ∧
      (∀ i, i < samplePlugin.versions.length →
        saved.versions[i]? = samplePlugin.versions[i]?) ∧
      (∀ i, i < sampleCalls.length →
        saved.versions[samplePlugin.versions.length + i]? = vs[i]?) ∧
      (sampleCalls ≠ [] →
        latestVersion saved = vs.getLast? ∧ (latestVersion saved).isSome = true) :=
  ⟨by decide, by decide,
   addVersion_appends sampleLib sampleStore sampleStoreAfterCalls 1 samplePlugin sampleCalls
     (by decide) (by decide)⟩

/-! ## Download counters -/

theorem gate_passes (s : Store) (user id : Nat) (plugin : Plugin)
    (h : findById s.plugins id = some plugin)
    (hg : user = plugin.author ∨ ¬ noPurchase s.purchases user id) :
    gateRejects s user plugin = false := by
  cases hgr : gateRejects s user plugin with
  | false => rfl
  | true =>
    have := (gateRejects_iff s user id plugin h).mp hgr
    rcases hg with e | e
    · exact absurd e this.2
    · exact absurd this.1 e

theorem handle_purchases_frame (lib : JSLib) (s : Store) (r : Request)
    (h : r.isPurchase = false) : (handle lib s r).2.purchases = s.purchases := by
  cases r with
  | createPlugin user body files serverUrl now newId =>
    exact createPlugin_purchases lib _ user body files serverUrl now newId
  | updatePlugin user id body files serverUrl =>
    exact updatePlugin_purchases lib _ user id body files serverUrl
  | addPluginVersion user id body pluginFile now =>
    exact addPluginVersion_purchases lib _ user id body _ now
  | createPluginReview user id body => exact createPluginReview_purchases lib s user id body
  | downloadPlugin user id => exact downloadPlugin_purchases s user id
  | createPurchase user pluginId transactionId => simp [Request.isPurchase] at h

theorem run_purchases_extend (lib : JSLib) (rs : List Request) :
    ∀ s : Store, ∃ more, (run lib s rs).purchases = s.purchases ++ more := by
  induction rs with
  | nil => intro s; exact ⟨[], by simp [run]⟩
  | cons r rs ih =>
    intro s
    obtain ⟨more, hm⟩ := ih (handle lib s r).2
    rcases handle_purchases lib s r with e | ⟨u, p, price, t, -, e⟩
    · exact ⟨more, by simp only [run]; rw [hm, e]⟩
    · exact ⟨{ user := u, plugin := p, price := price, transactionId := t } :: more,
        by simp only [run]; rw [hm, e]; simp⟩

theorem createPurchase_success (s : Store) (user pluginId : Nat) (transactionId : String)
    (plugin : Plugin) (h : findById s.plugins pluginId = some plugin)
    (hs : (createPurchase s user pluginId transactionId).1.success = true) :
    plugin.author ≠ user ∧ noPurchase s.purchases user pluginId ∧
    createPurchase s user pluginId transactionId =
      (.ok 201, { s with purchases := s.purchases ++
        [{ user := user, plugin := pluginId, price := plugin.price,
           transactionId := transactionId }] }) := by
  unfold createPurchase at hs ⊢
  simp only [h] at hs ⊢
  by_cases ha : (plugin.author == user) = true
  · simp [ha, Response.success] at hs
  · by_cases hp : (findPurchase s.purchases user pluginId).isSome = true
    · simp [ha, hp, Response.success] at hs
    · by_cases ht : (s.purchases.any (fun x => x.transactionId == transactionId)) = true
      · simp only [ha, hp, ht] at hs
        simp [Response.success] at hs
      · refine ⟨by simpa using ha, ?_, ?_⟩
        · by_contra hc
          exact hp ((findPurchase_isSome_iff _ _ _).mpr hc)
        · simp only [ha, hp, ht]
          rfl

/-- C8: a successful `createPurchase` appends a purchase whose price is the
price the plugin has at that moment; every later request other than a
purchase, `updatePlugin` included, leaves the ledger exactly as it is, and
after any sequence of later requests the ledger still starts with the same
records and the purchase found for the buyer and the plugin is the one
recorded, with the price paid. -/
theorem purchase_price_frozen (lib : JSLib) (s : Store) (user pluginId : Nat) (plugin : Plugin)
    (transactionId : String) (h : findById s.plugins pluginId = some plugin)
    (hs : (createPurchase s user pluginId transactionId).1.success = true) :
    (createPurchase s user pluginId transactionId).2.purchases = s.purchases ++
      [{ user := user, plugin := pluginId, price := plugin.price,
         transactionId := transactionId }] ∧
    (∀ (s1 : Store) (r : Request), r.isPurchase = false →
      (handle lib s1 r).2.purchases = s1.purchases) ∧
    (∀ rs : List Request,
      (∃ more, (run lib (createPurchase s user pluginId transactionId).2 rs).purchases =
        (createPurchase s user pluginId transactionId).2.purchases ++ more) ∧
      findPurchase (run lib (createPurchase s user pluginId transactionId).2 rs).purchases
        user pluginId =
        some { user := user, plugin := pluginId, price := plugin.price,
               transactionId := transactionId }) := by
  obtain ⟨-, hno, e⟩ := createPurchase_success s user pluginId transactionId plugin h hs
  refine ⟨by rw [e], fun s1 r hr => handle_purchases_frame lib s1 r hr, ?_⟩
  intro rs
  obtain ⟨more, hm⟩ := run_purchases_extend lib rs (createPurchase s user pluginId transactionId).2
  refine ⟨⟨more, hm⟩, ?_⟩
  rw [hm, e]
  have hnone : findPurchase s.purchases user pluginId = none := by
    have := (findPurchase_isNone_iff s.purchases user pluginId).mpr hno
    simpa using this
  unfold findPurchase at hnone ⊢
  simp only [List.find?_append, hnone, Option.none_or]
  simp

/-- Witness for C8: the plugin is created with price 10, user 2 buys it, the
author raises the price to 20; the plugin then costs 20 and the purchase of
user 2 still records 10. -/
theorem purchase_price_frozen_witness :
    findById scenarioStore.plugins 1 = some scenarioPlugin ∧
    (createPurchase scenarioStore 2 1 "aa").1.success = true ∧
    (findById (run sampleLib (createPurchase scenarioStore 2 1 "aa").2
      [scenarioUpdate]).plugins 1).map (fun p => p.price) = some 20 ∧
    findPurchase (run sampleLib (createPurchase scenarioStore 2 1 "aa").2
      [scenarioUpdate]).purchases 2 1 =
      some { user := 2, plugin := 1, price := 10, transactionId := "aa" } :=
  ⟨by decide, by decide, by decide,
   ((purchase_price_frozen sampleLib scenarioStore 2 1 scenarioPlugin "aa"
      (by decide) (by decide)).2.2 [scenarioUpdate]).2⟩

/-! ## Validation of the rating -/

theorem validateReview_isSome_iff (lib : JSLib) (user : Nat) (rating comment : JSVal) :
    (validateReview lib user (rating.toNumber lib) comment).isSome = true ↔
      ratingInRange lib rating ∧ (requiredString lib comment).isSome = true := by
  unfold validateReview ratingInRange
  cases hq : rating.toNumber lib with
  | none => simp
  | some q =>
    cases hc : requiredString lib comment with
    | none => simp
    | some c =>
      by_cases hb : 1 ≤ q ∧ q ≤ 5
      · simp [hb]
      · have hb2 : ¬ (1 ≤ q ∧ q ≤ 5) := hb
        simp only [Bool.and_eq_true, decide_eq_true_eq, hb, if_false]
        simp [hb2]

/-- C9 (counterexample): user 3, who bought the plugin and has not reviewed
it, submits the rating 9/2; the call is answered 201 although 9/2 is not an
integer. -/
theorem review_rating_fraction_accepted :
    (createPluginReview sampleLib reviewedStore 3 1 ⟨.num (mkRat 9 2), .str "good"⟩).1
      = .ok 201 ∧
    (mkRat 9 2).isInt = false ∧
    ((findById (createPluginReview sampleLib reviewedStore 3 1
        ⟨.num (mkRat 9 2), .str "good"⟩).2.plugins 1).map
      (fun p => p.reviews.map (fun r => r.rating))) = some [4, mkRat 9 2] := by
  decide

/-- C9 (amended): for a caller who is past the gate and has no review on the
plugin, `createPluginReview` succeeds only if `Number(rating)` is a number
between 1 and 5 inclusive, whole or not; it does succeed for such a rating
when the comment is valid; and for every other rating it throws a validation
error and returns the store, hence the reviews and the average rating of the
plugin, unchanged. -/
theorem review_rating_range (lib : JSLib) (s : Store) (user id : Nat) (body : ReviewBody)
    (plugin : Plugin) (h : findById s.plugins id = some plugin)
    (hg : user = plugin.author ∨ ¬ noPurchase s.purchases user id)
    (hnew : ∀ r ∈ plugin.reviews, r.user ≠ user) :
    ((createPluginReview lib s user id body).1.success = true →
      ratingInRange lib body.rating) ∧
    (ratingInRange lib body.rating → (requiredString lib body.comment).isSome = true →
      (createPluginReview lib s user id body).1 = .ok 201) ∧
    (¬ ratingInRange lib body.rating →
      createPluginReview lib s user id body = (.thrown .validationError, s)) := by
  have hgate := gate_passes s user id plugin h hg
  have hnone : (plugin.reviews.find? (fun r => r.user == user)).isSome = false := by
    cases hq : plugin.reviews.find? (fun r => r.user == user) with
    | none => rfl
    | some x =>
      have h1 := List.find?_some hq
      have h2 := List.mem_of_find?_eq_some hq
      exact absurd (by simpa using h1) (hnew x h2)
  have hiff := validateReview_isSome_iff lib user body.rating body.comment
  have e : createPluginReview lib s user id body =
      match validateReview lib user (body.rating.toNumber lib) body.comment with
      | none => (.thrown .validationError, s)
      | some review =>
        (.ok 201, savePlugin s { plugin with reviews := plugin.reviews ++ [review] }) := by
    unfold createPluginReview
    simp [h, hgate, hnone]
  rw [e]
  cases hv : validateReview lib user (body.rating.toNumber lib) body.comment with
  | none =>
    refine ⟨fun hs => by simp [Response.success] at hs, ?_, fun _ => rfl⟩
    intro hr hc
    rw [hv] at hiff
    exact absurd (hiff.mpr ⟨hr, hc⟩) (by simp)
  | some review =>
    rw [hv] at hiff
    have hr := (hiff.mp rfl).1
    exact ⟨fun _ => hr, fun _ _ => rfl, fun hn => absurd hr hn⟩

/-- Witness for C9 (amended): user 3 submits the rating 6. -/
theorem review_rating_range_witness :
    findById reviewedStore.plugins 1 = some reviewedPlugin ∧
    (∀ r ∈ reviewedPlugin.reviews, r.user ≠ 3) ∧
    createPluginReview sampleLib reviewedStore 3 1 ⟨.num 6, .str "good"⟩ =
      (.thrown .validationError, reviewedStore) :=
  ⟨by decide, by simp [reviewedPlugin],
   (review_rating_range sampleLib reviewedStore 3 1 ⟨.num 6, .str "good"⟩ reviewedPlugin
      (by decide) (Or.inr (by simp [noPurchase, reviewedStore]))
      (by simp [reviewedPlugin])).2.2
     (by
       rintro ⟨q, hq, -, h2⟩
       simp only [JSVal.toNumber, Option.some.injEq] at hq
       subst hq
       norm_num at h2)⟩

/-! ## Uploaded files when creation fails -/

/-- C10: `createPlugin` never removes a file.  A request with only a
thumbnail is answered 400 with no plugin stored and the thumbnail still on
disk; a request with both files and an invalid body throws a validation
error with no plugin stored and both files still on disk. -/
theorem createPlugin_failure_keeps_files :
    (∀ (lib : JSLib) (s : Store) (user : Nat) (body : CreateBody) (files : ReqFiles)
        (serverUrl : String) (now newId : Nat),
      (createPlugin lib s user body files serverUrl now newId).2.files = s.files) ∧
    handle sampleLib Store.empty thumbnailOnly =
      (.fail 400 "Please upload both plugin file and thumbnail",
        { plugins := [], purchases := [], files := ["uploads/thumbnails/a.png"] }) ∧
    handle sampleLib Store.empty namelessPlugin =
      (.thrown .validationError,
        { plugins := [], purchases := [],
          files := ["uploads/plugins/a.jar", "uploads/thumbnails/a.png"] }) := by
  refine ⟨?_, by decide, by decide⟩
  intro lib s user body files serverUrl now newId
  unfold createPlugin
  dsimp only
  repeat' split
  all_goals rfl

/-! ## Updating a plugin -/

/-- What a successful `updatePlugin` writes: each assignment went through, and
the document saved is the stored one with the six assigned fields and the
thumbnail address replaced. -/
theorem updatePlugin_saved (lib : JSLib) (s : Store) (user id : Nat) (body : UpdateBody)
    (files : ReqFiles) (serverUrl : String) (plugin : Plugin)
    (h : findById s.plugins id = some plugin)
    (hs : (updatePlugin lib s user id body files serverUrl).1.success = true) :
    ∃ name price category description requirements features,
      assignString lib body.name plugin.name = some name ∧
      assignPrice lib body.price plugin.price = some price ∧
      assignString lib body.category plugin.category = some category ∧
      assignString lib body.description plugin.description = some description ∧
      assignOptString lib body.requirements plugin.requirements = some requirements ∧
      (if body.features.truthy then lib.jsonParse (body.features.toStr lib)
        else some (some plugin.features)) = some (some features) ∧
      updatePlugin lib s user id body files serverUrl =
        (.ok 200, savePlugin s
          { plugin with
            name := name, price := price, category := category,
            description := description, requirements := requirements,
            features := features,
            thumbnailUrl :=
              match files.thumbnailFile with
              | some thumbnailFile =>
                some (serverUrl ++ "/uploads/thumbnails/" ++ thumbnailFile.filename)
              | none => plugin.thumbnailUrl }) := by
  unfold updatePlugin at hs ⊢
  simp only [h] at hs ⊢
  by_cases ha : plugin.author = user
  · subst ha
    simp only [bne_self_eq_false, Bool.false_eq_true, if_false] at hs ⊢
    split at hs
    · simp [Response.success] at hs
    · rename_i parsed hparsed
      split at hs
      · rename_i name price category description requirements features hn hp hc hd hr
        exact ⟨name, price, category, description, requirements, features,
          hn, hp, hc, hd, hr, hparsed, rfl⟩
      · simp [Response.success] at hs
  · simp [ha, Response.success] at hs

theorem assignString_rule (lib : JSLib) (v : JSVal) (old x : String)
    (h : assignString lib v old = some x) : TextSetOrKept lib v old x := by
  unfold assignString at h
  constructor
  · intro ht
    simp only [ht, if_true] at h
    unfold requiredString at h
    split at h
    · rename_i s hs
      split at h
      · simp at h
      · simp only [Option.some.injEq] at h
        rw [hs, h]
    · simp at h
  · intro ht
    simp only [ht, Bool.false_eq_true, if_false, Option.some.injEq] at h
    exact h.symm

theorem assignPrice_rule (lib : JSLib) (v : JSVal) (old x : ℚ)
    (h : assignPrice lib v old = some x) : NumberSetOrKept lib v old x := by
  unfold assignPrice at h
  constructor
  · intro ht
    simp only [ht, if_true] at h
    split at h
    · rename_i q hq
      simp only [Option.some.injEq] at h
      rw [hq, h]
    · simp at h
  · intro ht
    simp only [ht, Bool.false_eq_true, if_false, Option.some.injEq] at h
    exact h.symm

theorem assignOptString_rule (lib : JSLib) (v : JSVal) (old x : Option String)
    (h : assignOptString lib v old = some x) : OptTextSetOrKept lib v old x := by
  unfold assignOptString at h
  constructor
  · intro ht
    simp only [ht, if_true] at h
    unfold optionalString at h
    cases v with
    | undefined => simp [JSVal.truthy] at ht
    | null => simp [JSVal.truthy] at ht
    | nan => simp [JSVal.truthy] at ht
    | bool b =>
      simp only [castString, Option.some.injEq] at h
      exact ⟨_, rfl, h.symm⟩
    | num q =>
      simp only [castString, Option.some.injEq] at h
      exact ⟨_, rfl, h.symm⟩
    | str t =>
      simp only [castString, Option.some.injEq] at h
      exact ⟨_, rfl, h.symm⟩
  · intro ht
    simp only [ht, Bool.false_eq_true, if_false, Option.some.injEq] at h
    exact h.symm

theorem assignString_of_text (lib : JSLib) (v : JSVal) (old : String) (h : v.isText) :
    ∃ x, assignString lib v old = some x := by
  rcases h with e | ⟨t, e⟩
  · exact ⟨old, by simp [e, assignString, JSVal.truthy]⟩
  · by_cases ht : t = ""
    · exact ⟨old, by simp [e, assignString, JSVal.truthy, ht]⟩
    · exact ⟨t, by simp [e, assignString, JSVal.truthy, ht, requiredString, castString]⟩

theorem assignOptString_of_text (lib : JSLib) (v : JSVal) (old : Option String)
    (h : v.isText) : ∃ x, assignOptString lib v old = some x := by
  rcases h with e | ⟨t, e⟩
  · exact ⟨old, by simp [e, assignOptString, JSVal.truthy]⟩
  · by_cases ht : t = ""
    · exact ⟨old, by simp [e, assignOptString, JSVal.truthy, ht]⟩
    · exact ⟨some t, by simp [e, assignOptString, JSVal.truthy, ht, optionalString, castString]⟩

theorem assignPrice_of_numeric (lib : JSLib) (v : JSVal) (old : ℚ) (h : v.isNumeric) :
    ∃ x, assignPrice lib v old = some x := by
  rcases h with e | ⟨q, e⟩
  · exact ⟨old, by simp [e, assignPrice, JSVal.truthy]⟩
  · by_cases hq : q = 0
    · exact ⟨old, by simp [e, assignPrice, JSVal.truthy, hq]⟩
    · exact ⟨q, by simp [e, assignPrice, JSVal.truthy, hq, castNumber]⟩

@[simp] theorem preSave_name (p : Plugin) : (preSave p).name = p.name := by
  unfold preSave; split <;> rfl

@[simp] theorem preSave_category (p : Plugin) : (preSave p).category = p.category := by
  unfold preSave; split <;> rfl

@[simp] theorem preSave_description (p : Plugin) : (preSave p).description = p.description := by
  unfold preSave; split <;> rfl

@[simp] theorem preSave_requirements (p : Plugin) :
    (preSave p).requirements = p.requirements := by
  unfold preSave; split <;> rfl

@[simp] theorem preSave_features (p : Plugin) : (preSave p).features = p.features := by
  unfold preSave; split <;> rfl

/-- C11: for an existing plugin, `updatePlugin` called by anyone but the
author answers 403 and returns the store unchanged (on the route, where
multer has run first, plugins and ledger are unchanged and only the uploaded
files are on disk).  A successful call by the
author stores, for each of name, price, category, description and
requirements, the supplied value (cast to the type of the field) when it is
truthy and the prior value when it is absent or falsy, so the number 0 as
price keeps the price; it stores the parsed `features` when they are supplied
and the prior list otherwise; author, versions (with their download
counters), reviews and the download counter of the plugin are unchanged.  A
call by the author whose body holds strings and numbers only does succeed. -/
theorem updatePlugin_effect (lib : JSLib) (s : Store) (user id : Nat) (body : UpdateBody)
    (files : ReqFiles) (serverUrl : String) (plugin : Plugin)
    (h : findById s.plugins id = some plugin) :
    (user ≠ plugin.author →
      updatePlugin lib s user id body files serverUrl =
        (.fail 403 "You are not authorized to update this plugin", s) ∧
      handle lib s (.updatePlugin user id body files serverUrl) =
        (.fail 403 "You are not authorized to update this plugin", multerStore s files)) ∧
    (user = plugin.author →
      (updatePlugin lib s user id body files serverUrl).1.success = true →
      ∃ saved,
        findById (updatePlugin lib s user id body files serverUrl).2.plugins id = some saved ∧
        TextSetOrKept lib body.name plugin.name saved.name ∧
        NumberSetOrKept lib body.price plugin.price saved.price ∧
        TextSetOrKept lib body.category plugin.category saved.category ∧
        TextSetOrKept lib body.description plugin.description saved.description ∧
        OptTextSetOrKept lib body.requirements plugin.requirements saved.requirements ∧
        FeaturesSetOrKept lib body.features plugin.features saved.features ∧
        (body.price = .num 0 → saved.price = plugin.price) ∧
        saved.author = plugin.author ∧ saved.versions = plugin.versions ∧
        saved.reviews = plugin.reviews ∧ saved.downloadCount = plugin.downloadCount) ∧
    (user = plugin.author → body.plain lib →
      (updatePlugin lib s user id body files serverUrl).1 = .ok 200) := by
  have hid := (findById_some h).1
  refine ⟨?_, ?_, ?_⟩
  · intro hne
    have hb : (plugin.author != user) = true := by
      simpa using fun e : plugin.author = user => hne e.symm
    have key : ∀ s' : Store, findById s'.plugins id = some plugin →
        updatePlugin lib s' user id body files serverUrl =
          (.fail 403 "You are not authorized to update this plugin", s') := by
      intro s' h'
      unfold updatePlugin
      simp only [h', hb, if_true]
    exact ⟨key s h, key (multerStore s files) h⟩
  · intro _ hs
    obtain ⟨name, price, category, description, requirements, features,
      hn, hp, hc, hd, hr, hf, e⟩ := updatePlugin_saved lib s user id body files serverUrl plugin h hs
    have hprice := assignPrice_rule lib body.price plugin.price price hp
    rw [e]
    refine ⟨_, findById_savePlugin s id plugin _ h hid, ?_, ?_, ?_, ?_, ?_, ?_, ?_,
      by simp, by simp, by simp, by simp⟩
    · simpa using assignString_rule lib body.name plugin.name name hn
    · simpa using hprice
    · simpa using assignString_rule lib body.category plugin.category category hc
    · simpa using assignString_rule lib body.description plugin.description description hd
    · simpa using assignOptString_rule lib body.requirements plugin.requirements requirements hr
    · simp only [preSave_features]
      constructor
      · intro ht
        simpa [ht] using hf
      · intro ht
        simp only [ht, Bool.false_eq_true, if_false, Option.some.injEq] at hf
        exact hf.symm
    · intro h0
      simp only [preSave_price]
      exact hprice.2 (by simp [h0, JSVal.truthy])
  · intro ha hplain
    obtain ⟨hn, hp, hc, hd, hr, hf⟩ := hplain
    obtain ⟨n, en⟩ := assignString_of_text lib body.name plugin.name hn
    obtain ⟨pr, ep⟩ := assignPrice_of_numeric lib body.price plugin.price hp
    obtain ⟨c, ec⟩ := assignString_of_text lib body.category plugin.category hc
    obtain ⟨d, ed⟩ := assignString_of_text lib body.description plugin.description hd
    obtain ⟨r, er⟩ := assignOptString_of_text lib body.requirements plugin.requirements hr
    have ef : ∃ l, (if body.features.truthy then lib.jsonParse (body.features.toStr lib)
        else some (some plugin.features)) = some (some l) := by
      by_cases ht : body.features.truthy = true
      · rcases hf with e | ⟨l, e⟩
        · rw [e] at ht; simp at ht
        · exact ⟨l, by simp [ht, e]⟩
      · exact ⟨plugin.features, by simp [ht]⟩
    obtain ⟨l, el⟩ := ef
    have hb : (plugin.author != user) = false := by simp [ha]
    unfold updatePlugin
    simp only [h, hb, Bool.false_eq_true, if_false, el, en, ep, ec, ed, er]

/-- Witness for C11: user 2 is refused on the sample plugin, and its author
renames it while sending the number 0 as price. -/
theorem updatePlugin_effect_witness :
    findById sampleStore.plugins 1 = some samplePlugin ∧
    updatePlugin sampleLib sampleStore 2 1 sampleUpdate ⟨none, none⟩ "http://h" =
      (.fail 403 "You are not authorized to update this plugin", sampleStore) ∧
    (updatePlugin sampleLib sampleStore 1 1 sampleUpdate ⟨none, none⟩ "http://h").1.success
      = true ∧
    (findById (updatePlugin sampleLib sampleStore 1 1 sampleUpdate
        ⟨none, none⟩ "http://h").2.plugins 1).map
      (fun p => (p.name, p.price, p.description, p.requirements)) =
      some ("q", 10, "d", some "java 17") ∧
    (updatePlugin sampleLib sampleStore 1 1 sampleUpdate ⟨none, none⟩ "http://h").1 = .ok 200 :=
  ⟨by decide,
   ((updatePlugin_effect sampleLib sampleStore 2 1 sampleUpdate ⟨none, none⟩ "http://h"
      samplePlugin (by decide)).1 (by decide)).1,
   by decide, by decide,
   (updatePlugin_effect sampleLib sampleStore 1 1 sampleUpdate ⟨none, none⟩ "http://h"
      samplePlugin (by decide)).2.2 (by decide)
      ⟨Or.inr ⟨"q", rfl⟩, Or.inr ⟨0, rfl⟩, Or.inl rfl, Or.inr ⟨"", rfl⟩,
       Or.inr ⟨"java 17", rfl⟩, Or.inl rfl⟩⟩

/-! ## Author and versions of a plugin over time -/

theorem Continues.refl (p : Plugin) : Continues p p := ⟨rfl, Nat.le_refl _⟩

theorem Continues.trans {p q r : Plugin} (h1 : Continues p q) (h2 : Continues q r) :
    Continues p r := ⟨h2.1.trans h1.1, Nat.le_trans h1.2 h2.2⟩

/-- Saving a document over the stored plugin it continues keeps every lookup
defined, and what is found continues what was found before. -/
theorem findById_savePlugin_continues (s : Store) (id target : Nat) (p plugin q : Plugin)
    (hp : findById s.plugins id = some p) (ht : findById s.plugins target = some plugin)
    (hq : q.id = plugin.id) (hc : Continues plugin q) :
    ∃ p', findById (savePlugin s q).plugins id = some p' ∧ Continues p p' := by
  have htid := (findById_some ht).1
  by_cases e : target = id
  · subst e
    rw [hp] at ht
    simp only [Option.some.injEq] at ht
    subst ht
    refine ⟨preSave q, findById_savePlugin s target p q hp (hq.trans htid), ?_⟩
    exact ⟨by simpa using hc.1, by simpa using hc.2⟩
  · refine ⟨p, ?_, Continues.refl p⟩
    unfold savePlugin
    rw [findById_replaceDoc_other s.plugins id (preSave q)
      (by rw [preSave_id, hq, htid]; exact e)]
    exact hp

theorem createPluginReview_continues (lib : JSLib) (s : Store) (user target : Nat)
    (body : ReviewBody) (id : Nat) (p : Plugin) (hp : findById s.plugins id = some p) :
    ∃ p', findById (createPluginReview lib s user target body).2.plugins id = some p' ∧
      Continues p p' := by
  by_cases hs : (createPluginReview lib s user target body).1.success = true
  · cases hf : findById s.plugins target with
    | none => simp [createPluginReview, hf, Response.success] at hs
    | some plugin =>
      obtain ⟨review, -, -, -, e⟩ :=
        createPluginReview_success lib s user target body plugin hf hs
      rw [e]
      exact findById_savePlugin_continues s id target p plugin _ hp hf rfl
        ⟨rfl, Nat.le_refl _⟩
  · rw [createPluginReview_failure lib s user target body (by simpa using hs)]
    exact ⟨p, hp, Continues.refl p⟩

theorem downloadPlugin_continues (s : Store) (user target : Nat)
    (id : Nat) (p : Plugin) (hp : findById s.plugins id = some p) :
    ∃ p', findById (downloadPlugin s user target).2.plugins id = some p' ∧
      Continues p p' := by
  by_cases hs : (downloadPlugin s user target).1.success = true
  · cases hf : findById s.plugins target with
    | none => simp [downloadPlugin, hf, Response.success] at hs
    | some plugin =>
      obtain ⟨latest, -, -, -, e⟩ := downloadPlugin_success s user target plugin hf hs
      rw [e]
      exact findById_savePlugin_continues s id target p plugin _ hp hf rfl
        ⟨rfl, by simp⟩
  · rw [downloadPlugin_failure s user target (by simpa using hs)]
    exact ⟨p, hp, Continues.refl p⟩

theorem addPluginVersion_continues (lib : JSLib) (s : Store) (user target : Nat)
    (body : VersionBody) (files : ReqFiles) (now : Nat)
    (id : Nat) (p : Plugin) (hp : findById s.plugins id = some p) :
    ∃ p', findById (addPluginVersion lib s user target body files now).2.plugins id = some p' ∧
      Continues p p' := by
  by_cases hs : (addPluginVersion lib s user target body files now).1.success = true
  · cases hf : findById s.plugins target with
    | none => simp [addPluginVersion, hf, Response.success] at hs
    | some plugin =>
      obtain ⟨pluginFile, v, -, -, -, e⟩ :=
        addPluginVersion_success lib s user target body files now plugin hf hs
      rw [e]
      exact findById_savePlugin_continues s id target p plugin _ hp hf rfl
        ⟨rfl, by simp⟩
  · rw [addPluginVersion_failure lib s user target body files now (by simpa using hs)]
    exact ⟨p, hp, Continues.refl p⟩

theorem updatePlugin_continues (lib : JSLib) (s : Store) (user target : Nat)
    (body : UpdateBody) (files : ReqFiles) (serverUrl : String)
    (id : Nat) (p : Plugin) (hp : findById s.plugins id = some p) :
    ∃ p', findById (updatePlugin lib s user target body files serverUrl).2.plugins id
        = some p' ∧
      Continues p p' := by
  by_cases hs : (updatePlugin lib s user target body files serverUrl).1.success = true
  · cases hf : findById s.plugins target with
    | none => simp [updatePlugin, hf, Response.success] at hs
    | some plugin =>
      obtain ⟨q, hqid, hqa, hqv, -, -, -, e⟩ :=
        updatePlugin_success lib s user target body files serverUrl plugin hf hs
      rw [e]
      exact findById_savePlugin_continues s id target p plugin q hp hf hqid
        ⟨hqa, by rw [hqv]⟩
  · rw [updatePlugin_failure lib s user target body files serverUrl (by simpa using hs)]
    exact ⟨p, hp, Continues.refl p⟩

/-- The collection after `createPlugin`: as before, or with one new document
at the end, which has the generated id, the caller as author and exactly one
version, the id being unused before. -/
theorem createPlugin_appends (lib : JSLib) (s : Store) (user : Nat) (body : CreateBody)
    (files : ReqFiles) (serverUrl : String) (now newId : Nat) :
    ((createPlugin lib s user body files serverUrl now newId).1.success = false ∧
      (createPlugin lib s user body files serverUrl now newId).2 = s) ∨
    ((createPlugin lib s user body files serverUrl now newId).1.success = true ∧
      findById s.plugins newId = none ∧
      ∃ x : Plugin, x.id = newId ∧ x.author = user ∧ x.versions.length = 1 ∧
        (createPlugin lib s user body files serverUrl now newId).2.plugins =
          s.plugins ++ [x]) := by
  by_cases hs : (createPlugin lib s user body files serverUrl now newId).1.success = true
  · right
    refine ⟨hs, ?_⟩
    revert hs
    unfold createPlugin
    dsimp only
    repeat' split
    all_goals try (intro hs; simp [Response.success] at hs; done)
    rename_i plugin hv hnew
    intro _
    refine ⟨by simpa using hnew, preSave plugin, ?_, ?_, ?_, rfl⟩
    all_goals
      unfold validateNewPlugin at hv
      split at hv
      · simp only [Option.some.injEq] at hv
        subst hv
        simp
      · simp at hv
  · left
    have hf : (createPlugin lib s user body files serverUrl now newId).1.success = false := by
      simpa using hs
    exact ⟨hf, createPlugin_failure lib s user body files serverUrl now newId hf⟩

theorem findById_append_of_some (ps : List Plugin) (x : Plugin) (id : Nat) (p : Plugin)
    (h : findById ps id = some p) : findById (ps ++ [x]) id = some p := by
  unfold findById at h ⊢
  rw [List.find?_append, h]
  rfl

theorem findById_append_new (ps : List Plugin) (x : Plugin) (id : Nat)
    (h : findById ps id = none) (hx : x.id = id) : findById (ps ++ [x]) id = some x := by
  unfold findById at h ⊢
  rw [List.find?_append, h]
  simp [hx]

/-- No request changes the author of a stored plugin or removes a version
from it. -/
theorem handle_continues (lib : JSLib) (s : Store) (r : Request) (id : Nat) (p : Plugin)
    (hp : findById s.plugins id = some p) :
    ∃ p', findById (handle lib s r).2.plugins id = some p' ∧ Continues p p' := by
  cases r with
  | createPlugin user body files serverUrl now newId =>
    have hp' : findById (multerStore s files).plugins id = some p := hp
    rcases createPlugin_appends lib (multerStore s files) user body files serverUrl now newId
      with ⟨-, e⟩ | ⟨-, -, x, -, -, -, e⟩
    · simp only [handle]
      rw [e]
      exact ⟨p, hp', Continues.refl p⟩
    · simp only [handle]
      rw [e]
      exact ⟨p, findById_append_of_some _ x id p hp', Continues.refl p⟩
  | updatePlugin user target body files serverUrl =>
    exact updatePlugin_continues lib (multerStore s files) user target body files serverUrl
      id p hp
  | addPluginVersion user target body pluginFile now =>
    exact addPluginVersion_continues lib _ user target body _ now id p hp
  | createPluginReview user target body =>
    exact createPluginReview_continues lib s user target body id p hp
  | downloadPlugin user target => exact downloadPlugin_continues s user target id p hp
  | createPurchase user pluginId transactionId =>
    simp only [handle]
    rw [createPurchase_plugins]
    exact ⟨p, hp, Continues.refl p⟩

theorem run_continues (lib : JSLib) (rs : List Request) (id : Nat) :
    ∀ (s : Store) (p : Plugin), findById s.plugins id = some p →
      ∃ p', findById (run lib s rs).plugins id = some p' ∧ Continues p p' := by
  induction rs with
  | nil => intro s p hp; exact ⟨p, hp, Continues.refl p⟩
  | cons r rs ih =>
    intro s p hp
    obtain ⟨p1, h1, c1⟩ := handle_continues lib s r id p hp
    obtain ⟨p2, h2, c2⟩ := ih _ p1 h1
    exact ⟨p2, h2, c1.trans c2⟩

theorem handle_versions_nonempty (lib : JSLib) (s : Store) (r : Request)
    (h : ∀ p ∈ s.plugins, 1 ≤ p.versions.length) :
    ∀ p ∈ (handle lib s r).2.plugins, 1 ≤ p.versions.length := by
  intro x hx
  rcases handle_plugins lib s r x hx with h1 | ⟨-, h1⟩ | ⟨old, hold, -, -, hlen, -⟩
  · exact h x h1
  · rw [h1]
  · exact Nat.le_trans (h old hold) hlen

theorem run_versions_nonempty (lib : JSLib) (rs : List Request) :
    ∀ s : Store, (∀ p ∈ s.plugins, 1 ≤ p.versions.length) →
      ∀ p ∈ (run lib s rs).plugins, 1 ≤ p.versions.length := by
  induction rs with
  | nil => intro s h; exact h
  | cons r rs ih => intro s h; exact ih _ (handle_versions_nonempty lib s r h)

/-- C12: a successful `createPlugin` stores a plugin whose author is the
caller and which has exactly one version; after any sequence of requests of
the six state-changing routes, by any callers, the plugin stored under that
id still has the creator as author and a non-empty version list.  Each single
request keeps the author of every stored plugin and never shortens its
version list, and every plugin in a state reached from the empty store has at
least one version. -/
theorem author_and_versions_kept (lib : JSLib) (s : Store) (user : Nat) (body : CreateBody)
    (files : ReqFiles) (serverUrl : String) (now newId : Nat) (rs : List Request)
    (hs : (handle lib s (.createPlugin user body files serverUrl now newId)).1.success = true) :
    (∃ created,
      findById (handle lib s (.createPlugin user body files serverUrl now newId)).2.plugins
        newId = some created ∧
      created.author = user ∧ created.versions.length = 1) ∧
    (∃ p,
      findById (run lib (handle lib s
        (.createPlugin user body files serverUrl now newId)).2 rs).plugins newId = some p ∧
      p.author = user ∧ p.versions ≠ []) ∧
    (∀ (s1 : Store) (r : Request) (id : Nat) (p : Plugin), findById s1.plugins id = some p →
      ∃ p', findById (handle lib s1 r).2.plugins id = some p' ∧
        p'.author = p.author ∧ p.versions.length ≤ p'.versions.length) ∧
    (∀ (later : List Request), ∀ p ∈ (run lib Store.empty later).plugins, p.versions ≠ []) := by
  have hcreated : ∃ created,
      findById (handle lib s (.createPlugin user body files serverUrl now newId)).2.plugins
        newId = some created ∧
      created.author = user ∧ created.versions.length = 1 := by
    simp only [handle] at hs ⊢
    rcases createPlugin_appends lib (multerStore s files) user body files serverUrl now newId
      with ⟨hf, -⟩ | ⟨-, hnone, x, hxid, hxa, hxv, e⟩
    · rw [hf] at hs
      simp at hs
    · rw [e]
      exact ⟨x, findById_append_new _ x newId hnone hxid, hxa, hxv⟩
  refine ⟨hcreated, ?_, ?_, ?_⟩
  · obtain ⟨created, hfind, hauthor, hlen⟩ := hcreated
    obtain ⟨p, hp, hc⟩ := run_continues lib rs newId _ created hfind
    refine ⟨p, hp, hc.1.trans hauthor, ?_⟩
    intro he
    have := hc.2
    rw [he, hlen] at this
    simp at this
  · intro s1 r id p hp
    exact handle_continues lib s1 r id p hp
  · intro later p hp he
    have := run_versions_nonempty lib later Store.empty
      (by intro q hq; simp [Store.empty] at hq) p hp
    rw [he] at this
    simp at this

/-- Witness for C12: the scenario plugin is created by user 1 and then bought,
updated, extended by a version, reviewed and downloaded. -/
theorem author_and_versions_kept_witness :
    (handle sampleLib Store.empty scenarioCreate).1.success = true ∧
    (findById (run sampleLib scenarioStore scenarioLater).plugins 1).map
      (fun p => (p.author, p.versions.length, p.reviews.length, p.downloadCount)) =
      some (1, 2, 1, 1) ∧
    ∃ p, findById (run sampleLib scenarioStore scenarioLater).plugins 1 = some p ∧
      p.author = 1 ∧ p.versions ≠ [] :=
  ⟨by decide, by decide,
   (author_and_versions_kept sampleLib Store.empty 1
      { name := .str "p", price := .num 10, category := .str "c", description := .str "d",
        version := .str "1.0", minecraftVersion := .str "1.20", requirements := .undefined,
        features := .undefined }
      { pluginFile := some ⟨"uploads/plugins/a.jar", "a.jar"⟩,
        thumbnailFile := some ⟨"uploads/thumbnails/a.png", "a.png"⟩ }
      "http://h" 0 1 scenarioLater (by decide)).2.1⟩

end Marketplace
